import Mathlib

/-
Verification of the cursor-cache / prefetch pagination core of the
leaderboard repository.

Shallow embedding notes:
* `CursorCache` mirrors `src/types/CursorCache.ts`: JS `Map` becomes an
  association list with replace-or-append update, JS `Set` a duplicate-free
  list, `Date.now()` an explicit `now : Int` argument (milliseconds).
* The backend (Firestore) is abstracted to the four ordered-range query
  shapes the service issues (`QSpec`), evaluated against a canonical-order
  list of document ids.  `pureB db` is the non-failing backend; an arbitrary
  `Backend` may fail any call, modelling thrown exceptions via `Except`.
* A player record is abstracted to its document id: serialization
  (`serializePlayer`) is a deterministic per-document map, so record-list
  equality is id-list equality.
* The service functions mirror `src/unnamed/part_016` (the direction-aware
  variant, the most advanced one per the spec).  The un-awaited
  `prefetchLastPageCursor` call is sequentialized between the awaited
  prefetch and the page fetch; its only cache write is the anchor of the
  final page, which the page-fetch step never reads.
* The `reads` counters reproduce the source's own document-read counters
  (`getDoc` counts 1, `getDocs` counts the returned snapshot length; a
  thrown call counts the reads performed before the throw).
-/

namespace Leaderboard

/-- `CURSOR_CACHE_TTL = 60 * 60 * 1000` (1 hour), from CursorCache.ts. -/
def CURSOR_CACHE_TTL : Int := 60 * 60 * 1000

/-- `PREFETCH_WINDOW = 3`, from CursorCache.ts. -/
def PREFETCH_WINDOW : Nat := 3

/-- `ITEMS_PER_PAGE = 10`, from the leaderboard service. -/
def ITEMS_PER_PAGE : Nat := 10

/-- The `RankingCriteria` enum from types/leaderboard.ts. -/
inductive RankingCriteria where
  | disinformer
  | netizen
deriving DecidableEq, Repr

/-- String value of the enum member (TS enum values, used by `getKey`). -/
def RankingCriteria.toStr : RankingCriteria → String
  | .disinformer => "disinformer"
  | .netizen => "netizen"

/-- One cache entry, mirroring the `CacheEntry` interface. -/
structure CacheEntry where
  cursors : List (Nat × String)
  timestamp : Int
  prefetchedAroundPages : List Nat
  lastAccessedPage : Option Nat
deriving DecidableEq, Repr

/-- JS `Map.get`. -/
def mapGet : List (Nat × String) → Nat → Option String
  | [], _ => none
  | (k, v) :: rest, q => if k = q then some v else mapGet rest q

/-- JS `Map.set` (overwrite existing key, else append). -/
def mapSet : List (Nat × String) → Nat → String → List (Nat × String)
  | [], k, v => [(k, v)]
  | (k1, v1) :: rest, k, v =>
      if k1 = k then (k, v) :: rest else (k1, v1) :: mapSet rest k v

/-- JS `Set.add` (no duplicates). -/
def setAdd (s : List Nat) (x : Nat) : List Nat :=
  if x ∈ s then s else s ++ [x]

/-- JS `Map.get` for the outer cache map (string keys). -/
def entryGet : List (String × CacheEntry) → String → Option CacheEntry
  | [], _ => none
  | (k, e) :: rest, q => if k = q then some e else entryGet rest q

/-- JS `Map.set` for the outer cache map. -/
def entrySet : List (String × CacheEntry) → String → CacheEntry → List (String × CacheEntry)
  | [], k, e => [(k, e)]
  | (k1, e1) :: rest, k, e =>
      if k1 = k then (k, e) :: rest else (k1, e1) :: entrySet rest k e

/-- JS `Map.delete` for the outer cache map. -/
def entryDel : List (String × CacheEntry) → String → List (String × CacheEntry)
  | [], _ => []
  | (k1, e1) :: rest, k =>
      if k1 = k then rest else (k1, e1) :: entryDel rest k

/-- The `CursorCache` class state: the private `cache` map. -/
structure CursorCache where
  cache : List (String × CacheEntry)
deriving DecidableEq, Repr

def emptyCache : CursorCache := ⟨[]⟩

/-- `getKey(mode, searchTerm)`: the template literal `mode:searchTerm`. -/
def getKey (mode : RankingCriteria) (searchTerm : String) : String :=
  mode.toStr ++ ":" ++ searchTerm

/-- `isEntryValid`: entry exists and `Date.now() - entry.timestamp <= CURSOR_CACHE_TTL`. -/
def isEntryValid (now : Int) : Option CacheEntry → Bool
  | none => false
  | some e => decide (now - e.timestamp ≤ CURSOR_CACHE_TTL)

/-- `getCursor(mode, pageNumber, searchTerm)`. -/
def getCursor (c : CursorCache) (now : Int) (mode : RankingCriteria)
    (pageNumber : Nat) (searchTerm : String) : Option String :=
  let entry := entryGet c.cache (getKey mode searchTerm)
  if isEntryValid now entry then
    match entry with
    | some e => mapGet e.cursors pageNumber
    | none => none
  else none

/-- `setCursor(mode, pageNumber, docId, searchTerm)`. -/
def setCursor (c : CursorCache) (now : Int) (mode : RankingCriteria)
    (pageNumber : Nat) (docId : String) (searchTerm : String) : CursorCache :=
  let key := getKey mode searchTerm
  match entryGet c.cache key with
  | none =>
      ⟨entrySet c.cache key
        { cursors := mapSet [] pageNumber docId
          timestamp := now
          prefetchedAroundPages := []
          lastAccessedPage := none }⟩
  | some e =>
      ⟨entrySet c.cache key { e with cursors := mapSet e.cursors pageNumber docId }⟩

/-- `isPrefetchedAround(mode, pageNumber, searchTerm)`. -/
def isPrefetchedAround (c : CursorCache) (now : Int) (mode : RankingCriteria)
    (pageNumber : Nat) (searchTerm : String) : Bool :=
  let entry := entryGet c.cache (getKey mode searchTerm)
  if isEntryValid now entry then
    match entry with
    | some e => decide (pageNumber ∈ e.prefetchedAroundPages)
    | none => false
  else false

/-- `markPrefetchedAround(mode, pageNumber, searchTerm)`. -/
def markPrefetchedAround (c : CursorCache) (now : Int) (mode : RankingCriteria)
    (pageNumber : Nat) (searchTerm : String) : CursorCache :=
  let key := getKey mode searchTerm
  match entryGet c.cache key with
  | none =>
      ⟨entrySet c.cache key
        { cursors := []
          timestamp := now
          prefetchedAroundPages := setAdd [] pageNumber
          lastAccessedPage := none }⟩
  | some e =>
      ⟨entrySet c.cache key
        { e with prefetchedAroundPages := setAdd e.prefetchedAroundPages pageNumber }⟩

/-- Return type of `getStats`. -/
structure CacheStats where
  totalCursors : Nat
  cacheAge : Int
  isExpired : Bool
deriving DecidableEq, Repr

/-- `getStats(mode, searchTerm)`: note it does NOT go through `isEntryValid`. -/
def getStats (c : CursorCache) (now : Int) (mode : RankingCriteria)
    (searchTerm : String) : CacheStats :=
  match entryGet c.cache (getKey mode searchTerm) with
  | none => { totalCursors := 0, cacheAge := 0, isExpired := true }
  | some e =>
      let cacheAge := now - e.timestamp
      { totalCursors := e.cursors.length
        cacheAge := cacheAge
        isExpired := decide (cacheAge > CURSOR_CACHE_TTL) }

/-- `getLastAccessedPage(mode, searchTerm)`. -/
def getLastAccessedPage (c : CursorCache) (now : Int) (mode : RankingCriteria)
    (searchTerm : String) : Option Nat :=
  let entry := entryGet c.cache (getKey mode searchTerm)
  if isEntryValid now entry then
    match entry with
    | some e => e.lastAccessedPage
    | none => none
  else none

/-- `recordPageAccess(mode, pageNumber, searchTerm)`. -/
def recordPageAccess (c : CursorCache) (now : Int) (mode : RankingCriteria)
    (pageNumber : Nat) (searchTerm : String) : CursorCache :=
  let key := getKey mode searchTerm
  match entryGet c.cache key with
  | none =>
      ⟨entrySet c.cache key
        { cursors := []
          timestamp := now
          prefetchedAroundPages := []
          lastAccessedPage := some pageNumber }⟩
  | some e =>
      ⟨entrySet c.cache key { e with lastAccessedPage := some pageNumber }⟩

/-- `invalidate(mode, searchTerm)`. -/
def invalidate (c : CursorCache) (mode : RankingCriteria) (searchTerm : String) : CursorCache :=
  ⟨entryDel c.cache (getKey mode searchTerm)⟩

/-- The `NavigationDirection` enum from part_016. -/
inductive NavigationDirection where
  | Forward
  | Backward
  | JumpToStart
  | JumpToEnd
deriving DecidableEq, Repr

/-- `detectNavigationDirection(currentPage, lastAccessedPage, totalPages)`. -/
def detectNavigationDirection (currentPage : Nat) (lastAccessedPage : Option Nat)
    (totalPages : Nat) : NavigationDirection :=
  match lastAccessedPage with
  | none =>
      if currentPage = 1 then .JumpToStart
      else if currentPage = totalPages then .JumpToEnd
      else .Forward
  | some last =>
      if currentPage = 1 then .JumpToStart
      else if currentPage = totalPages then .JumpToEnd
      else if currentPage > last then .Forward
      else if currentPage < last then .Backward
      else .Forward

/-- The pagination clause of a query against the fixed base query of one
(mode, search) context: the four shapes issued by the service. -/
inductive QSpec where
  | fromStart (lim : Nat)
  | afterDoc (anchorId : String) (lim : Nat)
  | beforeDocLast (anchorId : String) (lim : Nat)
  | lastN (n : Nat)
deriving DecidableEq, Repr

/-- The database-access collaborator.  Each operation may fail (a thrown
exception in the source).  `fetchDoc` is `getDoc`: it yields whether the
document exists. -/
structure Backend where
  countDocs : Except Unit Nat
  runQuery : QSpec → Except Unit (List String)
  fetchDoc : String → Except Unit Bool

/-- Index of the first occurrence of `a` in `db`. -/
def firstIdxOf : List String → String → Option Nat
  | [], _ => none
  | x :: rest, a => if x = a then some 0 else (firstIdxOf rest a).map (· + 1)

/-- Query evaluation over the canonical-order id list.  A cursor anchored at
a non-existent document makes the query throw (Firestore rejects cursor
snapshots of missing documents). -/
def evalQuery (db : List String) : QSpec → Except Unit (List String)
  | .fromStart lim => .ok (db.take lim)
  | .afterDoc a lim =>
      match firstIdxOf db a with
      | some i => .ok ((db.drop (i + 1)).take lim)
      | none => .error ()
  | .beforeDocLast a lim =>
      match firstIdxOf db a with
      | some i =>
          let before := db.take i
          .ok (before.drop (before.length - lim))
      | none => .error ()
  | .lastN n => .ok (db.drop (db.length - n))

/-- The non-failing backend over a fixed canonical-order id list. -/
def pureB (db : List String) : Backend :=
  { countDocs := .ok db.length
    runQuery := evalQuery db
    fetchDoc := fun a => .ok (decide (a ∈ db)) }

/-- JS string truthiness of a nullable string (`null` and `""` are falsy). -/
def truthy : Option String → Bool
  | none => false
  | some s => decide (s ≠ "")

/-- Value of a truthy nullable string. -/
def strVal (o : Option String) : String := o.getD ""

/-- TS `searchTerm = ""` default applied to the optional normalized term. -/
def orEmpty (t : Option String) : String := t.getD ""

/-- `searchTermNormalize(term)`: `term.trim().toLowerCase()`. -/
def searchTermNormalize (term : String) : String := term.trim.toLower

/-- `searchTerm ? searchTermNormalize(searchTerm) : undefined`. -/
def optNormalize : Option String → Option String
  | none => none
  | some t => if t = "" then none else some (searchTermNormalize t)

/-- Pages `s` through `e` inclusive, in order. -/
def pageRange (s e : Nat) : List Nat := (List.range (e + 1 - s)).map (· + s)

/-- Return shape of `executeForwardFetch`. -/
structure ForwardFetchResult where
  allDocs : List String
  reads : Nat
  fetchedFromStart : Bool
deriving DecidableEq, Repr

/-- `executeForwardFetch(baseQuery, startPage, endPage, mode, term, currentReads)`
from part_016.  On a throw, the error carries the reads made so far. -/
def executeForwardFetch (B : Backend) (now : Int) (c : CursorCache)
    (startPage endPage : Nat) (mode : RankingCriteria) (term : Option String)
    (currentReads : Nat) : Except Nat ForwardFetchResult :=
  let docsToFetch := (endPage - startPage + 1) * ITEMS_PER_PAGE
  let staged : Except Nat (QSpec × Nat × Bool) :=
    if startPage > 1 then
      let anchorPage := startPage - 1
      let anchorCursorDocId := getCursor c now mode anchorPage (orEmpty term)
      if truthy anchorCursorDocId then
        match B.fetchDoc (strVal anchorCursorDocId) with
        | .error _ => .error currentReads
        | .ok _ =>
            .ok (QSpec.afterDoc (strVal anchorCursorDocId) (docsToFetch + 1),
                 currentReads + 1, false)
      else
        .ok (QSpec.fromStart (endPage * ITEMS_PER_PAGE + 1), currentReads, true)
    else
      .ok (QSpec.fromStart (docsToFetch + 1), currentReads, false)
  match staged with
  | .error r => .error r
  | .ok (prefetchQuery, reads, fetchedFromStart) =>
      match B.runQuery prefetchQuery with
      | .error _ => .error reads
      | .ok docs => .ok ⟨docs, reads + docs.length, fetchedFromStart⟩

/-- One step of the backward-fetch cursor-caching loop of part_016
(state: cache and remaining `missingPages`). -/
def backwardStep (now : Int) (mode : RankingCriteria) (searchTerm : String)
    (startPage endPage : Nat) :
    CursorCache × List Nat → Nat × String → CursorCache × List Nat :=
  fun st iv =>
    let pageNumber := startPage + iv.1 / ITEMS_PER_PAGE
    if (iv.1 + 1) % ITEMS_PER_PAGE = 0 ∧ pageNumber ≤ endPage - 1 then
      if pageNumber ∈ st.2 then
        (setCursor st.1 now mode pageNumber iv.2 searchTerm, st.2.erase pageNumber)
      else st
    else st

/-- One step of the forward-fetch cursor-caching loop of part_016. -/
def forwardStep (now : Int) (mode : RankingCriteria) (searchTerm : String)
    (startPage endPage : Nat) :
    CursorCache × List Nat → Nat × String → CursorCache × List Nat :=
  fun st iv =>
    let pageNumber := iv.1 / ITEMS_PER_PAGE + 1
    if (iv.1 + 1) % ITEMS_PER_PAGE = 0 ∧ startPage ≤ pageNumber ∧ pageNumber ≤ endPage then
      if pageNumber ∈ st.2 then
        (setCursor st.1 now mode pageNumber iv.2 searchTerm, st.2.erase pageNumber)
      else st
    else st

/-- The gap-detection, fetch, cursor-caching and marking part of
`prefetchCursorsAround` (everything after the page range has been chosen
from the direction). -/
def prefetchFetchPhase (B : Backend) (now : Int) (startPage endPage : Nat)
    (useBackwardFetch : Bool) (currentPage : Nat) (mode : RankingCriteria)
    (term : Option String) (c : CursorCache) : CursorCache × Nat :=
  let missingPages := (pageRange startPage endPage).filter
    (fun page => !truthy (getCursor c now mode page (orEmpty term)))
  if missingPages.isEmpty then
    (markPrefetchedAround c now mode currentPage (orEmpty term), 0)
  else
    let docsToFetch := (endPage - startPage + 1) * ITEMS_PER_PAGE
    let fetched : Except Nat (List String × Nat × Bool × Bool) :=
      if useBackwardFetch then
        let cursorDocId := getCursor c now mode endPage (orEmpty term)
        if truthy cursorDocId then
          match B.fetchDoc (strVal cursorDocId) with
          | .error _ =>
              (executeForwardFetch B now c startPage endPage mode term 0).map
                (fun f => (f.allDocs, f.reads, f.fetchedFromStart, false))
          | .ok _ =>
              match B.runQuery (.beforeDocLast (strVal cursorDocId) docsToFetch) with
              | .ok docs => .ok (docs, 1 + docs.length, false, true)
              | .error _ =>
                  (executeForwardFetch B now c startPage endPage mode term 1).map
                    (fun f => (f.allDocs, f.reads, f.fetchedFromStart, false))
        else
          (executeForwardFetch B now c startPage endPage mode term 0).map
            (fun f => (f.allDocs, f.reads, f.fetchedFromStart, false))
      else
        (executeForwardFetch B now c startPage endPage mode term 0).map
          (fun f => (f.allDocs, f.reads, f.fetchedFromStart, false))
    match fetched with
    | .error r => (c, r)
    | .ok (allDocs, reads, fetchedFromStart, isBackwardFetch) =>
        let looped :=
          if isBackwardFetch then
            allDocs.enum.foldl
              (backwardStep now mode (orEmpty term) startPage endPage)
              (c, missingPages)
          else
            let docOffset := if fetchedFromStart then (startPage - 1) * ITEMS_PER_PAGE else 0
            (allDocs.enum.drop docOffset).foldl
              (forwardStep now mode (orEmpty term) startPage endPage)
              (c, missingPages)
        (markPrefetchedAround looped.1 now mode currentPage (orEmpty term), reads)

/-- `prefetchCursorsAround(baseQuery, totalPages, currentPage, mode, term)`
from part_016.  The body's `try/catch` makes the function total: a thrown
fetch abandons the pass (no cache write has happened yet at any throw
point), returning the reads made before the throw. -/
def prefetchCursorsAround (B : Backend) (now : Int) (totalPages currentPage : Nat)
    (mode : RankingCriteria) (term : Option String) (c : CursorCache) :
    CursorCache × Nat :=
  if isPrefetchedAround c now mode currentPage (orEmpty term) then (c, 0)
  else
    let lastAccessedPage := getLastAccessedPage c now mode (orEmpty term)
    let direction := detectNavigationDirection currentPage lastAccessedPage totalPages
    let ranges :=
      match direction with
      | .Backward => (max 1 (currentPage - PREFETCH_WINDOW), currentPage, true)
      | .JumpToEnd => (max 1 (currentPage - PREFETCH_WINDOW), currentPage, true)
      | .JumpToStart => (1, min totalPages (1 + PREFETCH_WINDOW), false)
      | .Forward =>
          (max 1 (currentPage - PREFETCH_WINDOW), min totalPages (currentPage + PREFETCH_WINDOW), false)
    prefetchFetchPhase B now ranges.1 ranges.2.1 ranges.2.2 currentPage mode term c

/-- `prefetchLastPageCursor(baseQuery, totalPages, mode, term)` from
part_016; total for the same try/catch reason. -/
def prefetchLastPageCursor (B : Backend) (now : Int) (totalPages : Nat)
    (mode : RankingCriteria) (term : Option String) (c : CursorCache) :
    CursorCache × Nat :=
  if truthy (getCursor c now mode totalPages (orEmpty term)) then (c, 0)
  else
    match B.runQuery (.lastN 1) with
    | .error _ => (c, 0)
    | .ok docs =>
        match docs with
        | [] => (c, docs.length)
        | lastDoc :: _ => (setCursor c now mode totalPages lastDoc (orEmpty term), docs.length)

/-- The two best-effort prefetch passes run by `getPaginatedLeaderboard`
before its own page fetch (steps 4 and 4b of part_016). -/
def prefetchPhase (B : Backend) (now : Int) (totalPages pageNumber : Nat)
    (mode : RankingCriteria) (term : Option String) (c : CursorCache) :
    CursorCache × Nat :=
  let p1 := prefetchCursorsAround B now totalPages pageNumber mode term c
  let p2 := prefetchLastPageCursor B now totalPages mode term p1.1
  (p2.1, p1.2 + p2.2)

/-- `cursors` field of the page result. -/
structure PageResultCursors where
  nextPageDocId : Option String
  prevPageDocId : Option String
deriving DecidableEq, Repr

/-- `LeaderboardPageResult`, with each player abstracted to its doc id. -/
structure LeaderboardPageResult where
  players : List String
  totalPages : Nat
  currentPage : Nat
  hasNextPage : Bool
  hasPrevPage : Bool
  cursors : PageResultCursors
deriving DecidableEq, Repr

/-- JS `Array.slice(s, e)` for non-negative indices. -/
def listSlice (l : List String) (s e : Nat) : List String :=
  (l.drop s).take (e - s)

/-- Step 5 of `getPaginatedLeaderboard` (part_016): choose the page query —
anchored after the cached cursor of `pageNumber - 1` when it exists (with
an existence check on the cursor document), else the from-beginning
fallback.  Yields the query, the `getDoc` reads made, and whether the
from-beginning fallback was chosen. -/
def resolveStaged (B : Backend) (now : Int) (pageNumber : Nat)
    (mode : RankingCriteria) (term : Option String) (c : CursorCache) :
    Except Unit (QSpec × Nat × Bool) :=
  if pageNumber > 1 then
    let cursorDocId := getCursor c now mode (pageNumber - 1) (orEmpty term)
    if truthy cursorDocId then
      match B.fetchDoc (strVal cursorDocId) with
      | .error e => .error e
      | .ok ex =>
          if ex then
            .ok (QSpec.afterDoc (strVal cursorDocId) (ITEMS_PER_PAGE + 1), 1, false)
          else
            .ok (QSpec.fromStart (pageNumber * ITEMS_PER_PAGE + 1), 1, true)
    else
      .ok (QSpec.fromStart (pageNumber * ITEMS_PER_PAGE + 1), 0, true)
  else
    .ok (QSpec.fromStart (ITEMS_PER_PAGE + 1), 0, false)

/-- Steps 5-9 of `getPaginatedLeaderboard` (part_016): anchor lookup, page
fetch (with from-beginning fallback), slice, record access, build result.
Returns the updated cache, the document reads of these steps, and the
result (or the propagated fetch error). -/
def resolveCore (B : Backend) (now : Int) (totalPages pageNumber : Nat)
    (mode : RankingCriteria) (term : Option String) (c : CursorCache) :
    CursorCache × Nat × Except Unit LeaderboardPageResult :=
  match resolveStaged B now pageNumber mode term c with
  | .error e => (c, 0, .error e)
  | .ok (pageQuery, dreads, fetchedFromStart) =>
      match B.runQuery pageQuery with
      | .error e => (c, dreads, .error e)
      | .ok allDocs =>
          let reads := dreads + allDocs.length
          let startIdx := if fetchedFromStart then (pageNumber - 1) * ITEMS_PER_PAGE else 0
          let endIdx := startIdx + ITEMS_PER_PAGE
          let pageSlice := listSlice allDocs startIdx endIdx
          let players := pageSlice
          let cNew := recordPageAccess c now mode pageNumber (orEmpty term)
          (cNew, reads,
            .ok { players := players
                  totalPages := totalPages
                  currentPage := pageNumber
                  hasNextPage := decide (pageNumber < totalPages)
                  hasPrevPage := decide (pageNumber > 1)
                  cursors :=
                    { nextPageDocId :=
                        if allDocs.length > ITEMS_PER_PAGE then allDocs.get? ITEMS_PER_PAGE
                        else none
                      prevPageDocId :=
                        if pageNumber > 1 then players.head? else none } })

/-- `getPaginatedLeaderboard(pageNumber, mode, searchTerm)` from part_016.
The requested page is an `Int` (any number may be requested); a failure of
the count or of the page fetch is fatal and surfaces as `.error`. -/
def getPaginatedLeaderboard (B : Backend) (now : Int) (requestedPage : Int)
    (mode : RankingCriteria) (searchTerm : Option String) (c : CursorCache) :
    CursorCache × Nat × Except Unit LeaderboardPageResult :=
  let searchTermNormalized := optNormalize searchTerm
  match B.countDocs with
  | .error e => (c, 0, .error e)
  | .ok totalPlayers =>
      let totalPages := (totalPlayers + (ITEMS_PER_PAGE - 1)) / ITEMS_PER_PAGE
      let pageNumber : Nat :=
        if requestedPage < 1 ∨ (totalPages : Int) < requestedPage then 1
        else requestedPage.toNat
      let pre := prefetchPhase B now totalPages pageNumber mode searchTermNormalized c
      let core := resolveCore B now totalPages pageNumber mode searchTermNormalized pre.1
      (core.1, pre.2 + core.2.1, core.2.2)

/-- A backend in which every prefetch-only query shape (backward window
scan, last-record scan) throws, while count, document lookup, and the
forward fetch shapes used by the page resolver succeed. -/
def failingBackend (db : List String) : Backend :=
  { countDocs := .ok db.length
    runQuery := fun q =>
      match q with
      | .fromStart lim => .ok (db.take lim)
      | .afterDoc a lim =>
          .ok (match firstIdxOf db a with
               | some i => (db.drop (i + 1)).take lim
               | none => [])
      | .beforeDocLast _ _ => .error ()
      | .lastN _ => .error ()
    fetchDoc := fun a => .ok (decide (a ∈ db)) }

/-- Concrete document ids "r0", "r1", ... -/
def mkId (i : Nat) : String := "r" ++ Nat.repr i

/-- A 100-record backend state (10 full pages). -/
def db100 : List String := (List.range 100).map mkId

/-- A 41-record backend state (5 pages, last page has a single record). -/
def db41 : List String := (List.range 41).map mkId

/-- A 25-record backend state (3 pages). -/
def db25 : List String := (List.range 25).map mkId

/-- The last record of page `p` (pages are 1-based) in canonical order. -/
def lastRecordOfPage (db : List String) (p : Nat) : Option String :=
  db.get? (p * ITEMS_PER_PAGE - 1)

/-- Cache state for the C1 failing input: the (correct) anchor of page 1
and a last-accessed page of 4, so that a request for page 5 is a Forward
navigation whose window fetch is anchored after page 1. -/
def c1cache : CursorCache :=
  recordPageAccess (setCursor emptyCache 0 .disinformer 1 "r9" "") 0 .disinformer 4 ""

/-- Cache state for the C2 counterexample: page 5 already marked as
prefetched around, so the resolve call takes its own fetch path only. -/
def c2cache : CursorCache := markPrefetchedAround emptyCache 0 .disinformer 5 ""

/-- Cache state for the C7 counterexample: a stale anchor ("zzz" matches no
record) stored for page 1. -/
def c7cache : CursorCache := setCursor emptyCache 0 .disinformer 1 "zzz" ""

/-- First resolve of page 5 against the 41-record backend from `c7cache`. -/
def c7out1 : CursorCache × Nat × Except Unit LeaderboardPageResult :=
  getPaginatedLeaderboard (pureB db41) 0 5 .disinformer none c7cache

/-- Second, immediately following resolve of the same page. -/
def c7out2 : CursorCache × Nat × Except Unit LeaderboardPageResult :=
  getPaginatedLeaderboard (pureB db41) 0 5 .disinformer none c7out1.1

/-- A cache entry that is expired at time `CURSOR_CACHE_TTL + 1`: created
at time 0 holding the single anchor `(2, "a")`. -/
def expiredCacheEx : CursorCache := setCursor emptyCache 0 .disinformer 2 "a" ""

/-- All observations the Anchor Store offers for one (mode, term) context
agree between two cache states. -/
def sameObservations (m : RankingCriteria) (t : String) (c c2 : CursorCache) : Prop :=
  ∀ (now : Int) (page : Nat),
    getCursor c now m page t = getCursor c2 now m page t
    ∧ isPrefetchedAround c now m page t = isPrefetchedAround c2 now m page t
    ∧ getLastAccessedPage c now m t = getLastAccessedPage c2 now m t
    ∧ getStats c now m t = getStats c2 now m t

/-- Every anchor id stored anywhere in the cache occurs in the backend:
no stale anchors. -/
def cleanAnchors (db : List String) (c : CursorCache) : Prop :=
  ∀ k e page a, entryGet c.cache k = some e → mapGet e.cursors page = some a → a ∈ db

/-- The entry under `key` is absent or still valid at time `now`. -/
def entryLive (c : CursorCache) (now : Int) (key : String) : Prop :=
  isEntryValid now (entryGet c.cache key) = true ∨ entryGet c.cache key = none

/-- The entry under `key` exists but has expired at time `now`. -/
def entryDead (c : CursorCache) (now : Int) (key : String) : Prop :=
  ∃ e, entryGet c.cache key = some e ∧ isEntryValid now (some e) = false

end Leaderboard

deriving instance DecidableEq for Except

namespace Leaderboard

/- ### Generic lemmas about the map/set primitives -/

theorem mapGet_mapSet_self (l : List (Nat × String)) (k : Nat) (v : String) :
    mapGet (mapSet l k v) k = some v := by
  induction l with
  | nil => simp [mapGet, mapSet]
  | cons hd tl ih =>
      by_cases h : hd.1 = k <;> simp [mapSet, mapGet, h, ih]

theorem mapGet_mapSet_ne (l : List (Nat × String)) (k q : Nat) (v : String)
    (h : q ≠ k) : mapGet (mapSet l k v) q = mapGet l q := by
  induction l with
  | nil => simp [mapGet, mapSet, Ne.symm h]
  | cons hd tl ih =>
      obtain ⟨k1, v1⟩ := hd
      by_cases h1 : k1 = k
      · subst h1
        simp [mapSet, mapGet, Ne.symm h]
      · simp [mapSet, h1, mapGet, ih]

theorem entryGet_entrySet_self (l : List (String × CacheEntry)) (k : String) (e : CacheEntry) :
    entryGet (entrySet l k e) k = some e := by
  induction l with
  | nil => simp [entryGet, entrySet]
  | cons hd tl ih =>
      by_cases h : hd.1 = k <;> simp [entrySet, entryGet, h, ih]

theorem entryGet_entrySet_ne (l : List (String × CacheEntry)) (k q : String) (e : CacheEntry)
    (h : q ≠ k) : entryGet (entrySet l k e) q = entryGet l q := by
  induction l with
  | nil => simp [entryGet, entrySet, Ne.symm h]
  | cons hd tl ih =>
      obtain ⟨k1, e1⟩ := hd
      by_cases h1 : k1 = k
      · subst h1
        simp [entrySet, entryGet, Ne.symm h]
      · simp [entrySet, h1, entryGet, ih]

/- ### Write operations touch only their own key -/

theorem setCursor_cache_shape (c : CursorCache) (now : Int) (m : RankingCriteria)
    (p : Nat) (docId t : String) :
    ∃ e, (setCursor c now m p docId t).cache = entrySet c.cache (getKey m t) e := by
  unfold setCursor
  dsimp only
  split <;> exact ⟨_, rfl⟩

theorem markPrefetchedAround_cache_shape (c : CursorCache) (now : Int) (m : RankingCriteria)
    (p : Nat) (t : String) :
    ∃ e, (markPrefetchedAround c now m p t).cache = entrySet c.cache (getKey m t) e := by
  unfold markPrefetchedAround
  dsimp only
  split <;> exact ⟨_, rfl⟩

theorem recordPageAccess_cache_shape (c : CursorCache) (now : Int) (m : RankingCriteria)
    (p : Nat) (t : String) :
    ∃ e, (recordPageAccess c now m p t).cache = entrySet c.cache (getKey m t) e := by
  unfold recordPageAccess
  dsimp only
  split <;> exact ⟨_, rfl⟩

/- ### Reads factor through the entry of their own key -/

theorem getCursor_congr (c c2 : CursorCache) (now : Int) (m : RankingCriteria)
    (page : Nat) (t : String)
    (h : entryGet c.cache (getKey m t) = entryGet c2.cache (getKey m t)) :
    getCursor c now m page t = getCursor c2 now m page t := by
  unfold getCursor; rw [h]

theorem isPrefetchedAround_congr (c c2 : CursorCache) (now : Int) (m : RankingCriteria)
    (page : Nat) (t : String)
    (h : entryGet c.cache (getKey m t) = entryGet c2.cache (getKey m t)) :
    isPrefetchedAround c now m page t = isPrefetchedAround c2 now m page t := by
  unfold isPrefetchedAround; rw [h]

theorem getLastAccessedPage_congr (c c2 : CursorCache) (now : Int) (m : RankingCriteria)
    (t : String)
    (h : entryGet c.cache (getKey m t) = entryGet c2.cache (getKey m t)) :
    getLastAccessedPage c now m t = getLastAccessedPage c2 now m t := by
  unfold getLastAccessedPage; rw [h]

theorem getStats_congr (c c2 : CursorCache) (now : Int) (m : RankingCriteria)
    (t : String)
    (h : entryGet c.cache (getKey m t) = entryGet c2.cache (getKey m t)) :
    getStats c now m t = getStats c2 now m t := by
  unfold getStats; rw [h]

/- ### Distinct contexts have distinct keys -/

theorem getKey_inj (m1 m2 : RankingCriteria) (t1 t2 : String)
    (h : getKey m1 t1 = getKey m2 t2) : m1 = m2 ∧ t1 = t2 := by
  have hd := congrArg String.data h
  cases m1 <;> cases m2 <;>
    simp only [getKey, RankingCriteria.toStr, String.data_append] at hd
  · exact ⟨rfl, String.ext (List.append_cancel_left hd)⟩
  · exfalso; revert hd; simp [String.data]
  · exfalso; revert hd; simp [String.data]
  · exact ⟨rfl, String.ext (List.append_cancel_left hd)⟩

/- ### Facts about the resolver core -/

theorem listSlice_length_le (l : List String) (s n : Nat) :
    (listSlice l s (s + n)).length ≤ n := by
  unfold listSlice
  rw [Nat.add_sub_cancel_left]
  simpa using List.length_take_le n (l.drop s)

theorem resolveCore_ok_shape (B : Backend) (now : Int) (tp p : Nat)
    (mode : RankingCriteria) (term : Option String) (c : CursorCache)
    (r : LeaderboardPageResult)
    (h : (resolveCore B now tp p mode term c).2.2 = .ok r) :
    r.players.length ≤ ITEMS_PER_PAGE ∧ r.totalPages = tp ∧ r.currentPage = p
    ∧ (resolveCore B now tp p mode term c).1
        = recordPageAccess c now mode p (orEmpty term) := by
  unfold resolveCore at h ⊢
  cases hs : resolveStaged B now p mode term c with
  | error e => rw [hs] at h; simp at h
  | ok trip =>
      obtain ⟨pq, dr, ffs⟩ := trip
      rw [hs] at h
      dsimp only at h ⊢
      cases hq : B.runQuery pq with
      | error e => rw [hq] at h; simp at h
      | ok allDocs =>
          rw [hq] at h
          dsimp only at h ⊢
          obtain rfl := (Except.ok.inj h).symm
          refine ⟨?_, rfl, rfl, rfl⟩
          exact listSlice_length_le allDocs _ ITEMS_PER_PAGE

theorem resolveStaged_shape (B : Backend) (now : Int) (p : Nat)
    (mode : RankingCriteria) (term : Option String) (c : CursorCache)
    (hdoc : ∀ a, ∃ b, B.fetchDoc a = .ok b) :
    ∃ q dr ffs, resolveStaged B now p mode term c = .ok (q, dr, ffs)
      ∧ ((∃ lim, q = QSpec.fromStart lim) ∨ (∃ a lim, q = QSpec.afterDoc a lim)) := by
  unfold resolveStaged
  dsimp only
  by_cases hp : p > 1
  · rw [if_pos hp]
    cases ht : truthy (getCursor c now mode (p - 1) (orEmpty term)) with
    | false =>
        rw [if_neg (by simp [ht])]
        exact ⟨_, _, _, rfl, Or.inl ⟨_, rfl⟩⟩
    | true =>
        rw [if_pos (by simp [ht])]
        obtain ⟨b, hb⟩ := hdoc (strVal (getCursor c now mode (p - 1) (orEmpty term)))
        rw [hb]
        cases b
        · exact ⟨QSpec.fromStart (p * ITEMS_PER_PAGE + 1), 1, true, by simp,
            Or.inl ⟨_, rfl⟩⟩
        · exact ⟨QSpec.afterDoc (strVal (getCursor c now mode (p - 1) (orEmpty term)))
              (ITEMS_PER_PAGE + 1), 1, false, by simp, Or.inr ⟨_, _, rfl⟩⟩
  · rw [if_neg hp]
    exact ⟨_, _, _, rfl, Or.inl ⟨_, rfl⟩⟩

theorem firstIdxOf_of_mem (db : List String) (a : String) (h : a ∈ db) :
    ∃ i, firstIdxOf db a = some i := by
  induction db with
  | nil => cases h
  | cons x rest ih =>
      by_cases hx : x = a
      · exact ⟨0, by simp [firstIdxOf, hx]⟩
      · have hm : a ∈ rest := by
          rcases List.mem_cons.mp h with h1 | h1
          · exact absurd h1.symm hx
          · exact h1
        obtain ⟨i, hi⟩ := ih hm
        exact ⟨i + 1, by simp [firstIdxOf, hx, hi]⟩

theorem resolveStaged_pure_ok (db : List String) (now : Int) (p : Nat)
    (mode : RankingCriteria) (term : Option String) (c : CursorCache) :
    ∃ q dr ffs, resolveStaged (pureB db) now p mode term c = .ok (q, dr, ffs)
      ∧ ∃ l, (pureB db).runQuery q = .ok l := by
  unfold resolveStaged
  dsimp only
  by_cases hp : p > 1
  · rw [if_pos hp]
    cases ht : truthy (getCursor c now mode (p - 1) (orEmpty term)) with
    | false =>
        rw [if_neg (by simp [ht])]
        exact ⟨_, _, _, rfl, _, rfl⟩
    | true =>
        rw [if_pos (by simp [ht])]
        have hb : (pureB db).fetchDoc (strVal (getCursor c now mode (p - 1) (orEmpty term)))
            = Except.ok (decide (strVal (getCursor c now mode (p - 1) (orEmpty term)) ∈ db)) := rfl
        rw [hb]
        cases hmem : decide (strVal (getCursor c now mode (p - 1) (orEmpty term)) ∈ db) with
        | false =>
            exact ⟨QSpec.fromStart (p * ITEMS_PER_PAGE + 1), 1, true, by simp, _, rfl⟩
        | true =>
            have hm : strVal (getCursor c now mode (p - 1) (orEmpty term)) ∈ db :=
              of_decide_eq_true hmem
            obtain ⟨i, hi⟩ := firstIdxOf_of_mem db _ hm
            refine ⟨QSpec.afterDoc (strVal (getCursor c now mode (p - 1) (orEmpty term)))
              (ITEMS_PER_PAGE + 1), 1, false, by simp,
              (db.drop (i + 1)).take (ITEMS_PER_PAGE + 1), ?_⟩
            simp only [pureB, evalQuery, hi]
  · rw [if_neg hp]
    exact ⟨_, _, _, rfl, _, rfl⟩

theorem resolveCore_pure_ok (db : List String) (now : Int) (tp p : Nat)
    (mode : RankingCriteria) (term : Option String) (c : CursorCache) :
    ∃ r, (resolveCore (pureB db) now tp p mode term c).2.2 = .ok r := by
  unfold resolveCore
  obtain ⟨q, dr, ffs, hs, l, hl⟩ := resolveStaged_pure_ok db now p mode term c
  rw [hs]
  dsimp only
  rw [hl]
  exact ⟨_, rfl⟩

theorem recordPageAccess_lastAccessed (c : CursorCache) (now : Int)
    (m : RankingCriteria) (p : Nat) (t : String) :
    ∃ e, entryGet (recordPageAccess c now m p t).cache (getKey m t) = some e
      ∧ e.lastAccessedPage = some p := by
  unfold recordPageAccess
  dsimp only
  split
  · exact ⟨_, entryGet_entrySet_self _ _ _, rfl⟩
  · exact ⟨_, entryGet_entrySet_self _ _ _, rfl⟩

/- ### Small utility lemmas -/

theorem truthy_iff (o : Option String) :
    truthy o = true ↔ ∃ s, o = some s ∧ s ≠ "" := by
  cases o with
  | none => simp [truthy]
  | some s => simp [truthy]

theorem strVal_some (s : String) : strVal (some s) = s := rfl

theorem setAdd_mem_self (s : List Nat) (x : Nat) : x ∈ setAdd s x := by
  unfold setAdd
  split
  · assumption
  · simp

theorem setAdd_mem_of_mem (s : List Nat) (x y : Nat) (h : y ∈ s) : y ∈ setAdd s x := by
  unfold setAdd
  split
  · exact h
  · simp [h]

theorem lastN_one (db : List String) (h : db ≠ []) :
    ∃ x, db.drop (db.length - 1) = [x] ∧ x ∈ db := by
  induction db with
  | nil => exact absurd rfl h
  | cons a rest ih =>
      cases hr : rest with
      | nil => exact ⟨a, by simp, by simp⟩
      | cons b rest2 =>
          obtain ⟨x, hx, hmem⟩ := ih (by simp [hr])
          rw [hr] at hx hmem
          refine ⟨x, ?_, by simp [hmem]⟩
          have hlen : (a :: b :: rest2).length - 1 = (b :: rest2).length := by simp
          rw [hlen]
          have : (b :: rest2).length = ((b :: rest2).length - 1) + 1 := by simp
          rw [this, List.drop_succ_cons]
          exact hx

theorem mapGet_mapSet_cases (l : List (Nat × String)) (k q : Nat) (v a : String)
    (h : mapGet (mapSet l k v) q = some a) : a = v ∨ mapGet l q = some a := by
  by_cases hq : q = k
  · subst hq
    rw [mapGet_mapSet_self] at h
    exact Or.inl (Option.some.inj h).symm
  · rw [mapGet_mapSet_ne _ _ _ _ hq] at h
    exact Or.inr h

theorem evalQuery_mem (db : List String) (q : QSpec) (l : List String)
    (h : evalQuery db q = .ok l) : ∀ x ∈ l, x ∈ db := by
  cases q with
  | fromStart lim =>
      simp only [evalQuery] at h
      obtain rfl := (Except.ok.inj h).symm
      exact fun x hx => List.take_subset _ _ hx
  | afterDoc a lim =>
      simp only [evalQuery] at h
      cases hi : firstIdxOf db a with
      | none => rw [hi] at h; simp at h
      | some i =>
          rw [hi] at h
          obtain rfl := (Except.ok.inj h).symm
          exact fun x hx => List.drop_subset _ _ (List.take_subset _ _ hx)
  | beforeDocLast a lim =>
      simp only [evalQuery] at h
      cases hi : firstIdxOf db a with
      | none => rw [hi] at h; simp at h
      | some i =>
          rw [hi] at h
          dsimp only at h
          obtain rfl := (Except.ok.inj h).symm
          exact fun x hx => List.take_subset _ _ (List.drop_subset _ _ hx)
  | lastN n =>
      simp only [evalQuery] at h
      obtain rfl := (Except.ok.inj h).symm
      exact fun x hx => List.drop_subset _ _ hx

theorem mem_of_mem_enumFrom (l : List String) :
    ∀ (n : Nat) (iv : Nat × String), iv ∈ l.enumFrom n → iv.2 ∈ l := by
  induction l with
  | nil => intro n iv h; cases h
  | cons a rest ih =>
      intro n iv h
      rcases List.mem_cons.mp h with rfl | h2
      · simp
      · exact List.mem_cons_of_mem _ (ih (n + 1) iv h2)

theorem mem_of_mem_enum (l : List String) (iv : Nat × String) (h : iv ∈ l.enum) :
    iv.2 ∈ l :=
  mem_of_mem_enumFrom l 0 iv h

/- ### Preservation lemmas for single cache writes (same context) -/

theorem isPrefetchedAround_setCursor (c : CursorCache) (now now2 : Int)
    (m : RankingCriteria) (p : Nat) (docId t : String) (q : Nat) :
    isPrefetchedAround (setCursor c now m p docId t) now2 m q t
      = isPrefetchedAround c now2 m q t := by
  unfold setCursor isPrefetchedAround
  dsimp only
  cases hE : entryGet c.cache (getKey m t) with
  | none => simp [entryGet_entrySet_self, hE, isEntryValid]
  | some e => simp [entryGet_entrySet_self, hE, isEntryValid]

theorem getLastAccessedPage_setCursor (c : CursorCache) (now now2 : Int)
    (m : RankingCriteria) (p : Nat) (docId t : String) :
    getLastAccessedPage (setCursor c now m p docId t) now2 m t
      = getLastAccessedPage c now2 m t := by
  unfold setCursor getLastAccessedPage
  dsimp only
  cases hE : entryGet c.cache (getKey m t) with
  | none => simp [entryGet_entrySet_self, hE, isEntryValid]
  | some e => simp [entryGet_entrySet_self, hE, isEntryValid]

theorem getCursor_setCursor_ne (c : CursorCache) (now now2 : Int)
    (m : RankingCriteria) (p : Nat) (docId t : String) (q : Nat) (hq : q ≠ p) :
    getCursor (setCursor c now m p docId t) now2 m q t = getCursor c now2 m q t := by
  unfold setCursor getCursor
  dsimp only
  cases hE : entryGet c.cache (getKey m t) with
  | none =>
      simp only [entryGet_entrySet_self, hE, isEntryValid, mapGet_mapSet_ne _ _ _ _ hq]
      simp [mapGet]
  | some e =>
      simp [entryGet_entrySet_self, hE, isEntryValid, mapGet_mapSet_ne _ _ _ _ hq]

theorem getCursor_setCursor_self (c : CursorCache) (now : Int)
    (m : RankingCriteria) (p : Nat) (docId t : String)
    (hlive : entryLive c now (getKey m t)) :
    getCursor (setCursor c now m p docId t) now m p t = some docId := by
  unfold setCursor getCursor
  dsimp only
  cases hE : entryGet c.cache (getKey m t) with
  | none =>
      have h0 : (0 : Int) ≤ CURSOR_CACHE_TTL := by decide
      simp [entryGet_entrySet_self, isEntryValid, mapGet_mapSet_self, h0]
  | some e =>
      rcases hlive with hv | habs
      · rw [hE] at hv
        simp only [isEntryValid, decide_eq_true_iff] at hv
        simp [entryGet_entrySet_self, isEntryValid, mapGet_mapSet_self, hv]
      · rw [hE] at habs; cases habs

theorem getCursor_markPrefetchedAround (c : CursorCache) (now now2 : Int)
    (m : RankingCriteria) (p : Nat) (t : String) (q : Nat) :
    getCursor (markPrefetchedAround c now m p t) now2 m q t = getCursor c now2 m q t := by
  unfold markPrefetchedAround getCursor
  dsimp only
  cases hE : entryGet c.cache (getKey m t) with
  | none => simp [entryGet_entrySet_self, hE, isEntryValid, mapGet]
  | some e => simp [entryGet_entrySet_self, hE, isEntryValid]

theorem getLastAccessedPage_markPrefetchedAround (c : CursorCache) (now now2 : Int)
    (m : RankingCriteria) (p : Nat) (t : String) :
    getLastAccessedPage (markPrefetchedAround c now m p t) now2 m t
      = getLastAccessedPage c now2 m t := by
  unfold markPrefetchedAround getLastAccessedPage
  dsimp only
  cases hE : entryGet c.cache (getKey m t) with
  | none => simp [entryGet_entrySet_self, hE, isEntryValid]
  | some e => simp [entryGet_entrySet_self, hE, isEntryValid]

theorem isPrefetchedAround_markPrefetchedAround_self (c : CursorCache) (now : Int)
    (m : RankingCriteria) (p : Nat) (t : String)
    (hlive : entryLive c now (getKey m t)) :
    isPrefetchedAround (markPrefetchedAround c now m p t) now m p t = true := by
  unfold markPrefetchedAround isPrefetchedAround
  dsimp only
  cases hE : entryGet c.cache (getKey m t) with
  | none =>
      have h0 : (0 : Int) ≤ CURSOR_CACHE_TTL := by decide
      simp [entryGet_entrySet_self, isEntryValid, h0, setAdd_mem_self]
  | some e =>
      rcases hlive with hv | habs
      · rw [hE] at hv
        simp only [isEntryValid, decide_eq_true_iff] at hv
        simp [entryGet_entrySet_self, isEntryValid, hv, setAdd_mem_self]
      · rw [hE] at habs; cases habs

theorem getCursor_recordPageAccess (c : CursorCache) (now now2 : Int)
    (m : RankingCriteria) (p : Nat) (t : String) (q : Nat) :
    getCursor (recordPageAccess c now m p t) now2 m q t = getCursor c now2 m q t := by
  unfold recordPageAccess getCursor
  dsimp only
  cases hE : entryGet c.cache (getKey m t) with
  | none => simp [entryGet_entrySet_self, hE, isEntryValid, mapGet]
  | some e => simp [entryGet_entrySet_self, hE, isEntryValid]

theorem isPrefetchedAround_recordPageAccess (c : CursorCache) (now now2 : Int)
    (m : RankingCriteria) (p : Nat) (t : String) (q : Nat) :
    isPrefetchedAround (recordPageAccess c now m p t) now2 m q t
      = isPrefetchedAround c now2 m q t := by
  unfold recordPageAccess isPrefetchedAround
  dsimp only
  cases hE : entryGet c.cache (getKey m t) with
  | none => simp [entryGet_entrySet_self, hE, isEntryValid]
  | some e => simp [entryGet_entrySet_self, hE, isEntryValid]

/- ### Liveness, deadness and cleanliness preservation -/

theorem entryLive_setCursor (c : CursorCache) (now : Int) (m : RankingCriteria)
    (p : Nat) (docId t : String) (h : entryLive c now (getKey m t)) :
    entryLive (setCursor c now m p docId t) now (getKey m t) := by
  unfold setCursor
  dsimp only
  cases hE : entryGet c.cache (getKey m t) with
  | none =>
      left
      simp [entryLive, entryGet_entrySet_self, isEntryValid, CURSOR_CACHE_TTL]
  | some e =>
      rcases h with hv | habs
      · left
        rw [hE] at hv
        simp only [entryGet_entrySet_self, isEntryValid, decide_eq_true_iff] at hv ⊢
        exact hv
      · rw [hE] at habs; cases habs

theorem entryLive_markPrefetchedAround (c : CursorCache) (now : Int)
    (m : RankingCriteria) (p : Nat) (t : String) (h : entryLive c now (getKey m t)) :
    entryLive (markPrefetchedAround c now m p t) now (getKey m t) := by
  unfold markPrefetchedAround
  dsimp only
  cases hE : entryGet c.cache (getKey m t) with
  | none =>
      left
      simp [entryLive, entryGet_entrySet_self, isEntryValid, CURSOR_CACHE_TTL]
  | some e =>
      rcases h with hv | habs
      · left
        rw [hE] at hv
        simp only [entryGet_entrySet_self, isEntryValid, decide_eq_true_iff] at hv ⊢
        exact hv
      · rw [hE] at habs; cases habs

theorem entryLive_recordPageAccess (c : CursorCache) (now : Int)
    (m : RankingCriteria) (p : Nat) (t : String) (h : entryLive c now (getKey m t)) :
    entryLive (recordPageAccess c now m p t) now (getKey m t) := by
  unfold recordPageAccess
  dsimp only
  cases hE : entryGet c.cache (getKey m t) with
  | none =>
      left
      simp [entryLive, entryGet_entrySet_self, isEntryValid, CURSOR_CACHE_TTL]
  | some e =>
      rcases h with hv | habs
      · left
        rw [hE] at hv
        simp only [entryGet_entrySet_self, isEntryValid, decide_eq_true_iff] at hv ⊢
        exact hv
      · rw [hE] at habs; cases habs

theorem entryDead_setCursor (c : CursorCache) (now : Int) (m : RankingCriteria)
    (p : Nat) (docId t : String) (h : entryDead c now (getKey m t)) :
    entryDead (setCursor c now m p docId t) now (getKey m t) := by
  obtain ⟨e, hE, hv⟩ := h
  unfold setCursor
  dsimp only
  rw [hE]
  refine ⟨_, entryGet_entrySet_self _ _ _, ?_⟩
  simpa [isEntryValid] using hv

theorem entryDead_markPrefetchedAround (c : CursorCache) (now : Int)
    (m : RankingCriteria) (p : Nat) (t : String) (h : entryDead c now (getKey m t)) :
    entryDead (markPrefetchedAround c now m p t) now (getKey m t) := by
  obtain ⟨e, hE, hv⟩ := h
  unfold markPrefetchedAround
  dsimp only
  rw [hE]
  refine ⟨_, entryGet_entrySet_self _ _ _, ?_⟩
  simpa [isEntryValid] using hv

theorem entryDead_recordPageAccess (c : CursorCache) (now : Int)
    (m : RankingCriteria) (p : Nat) (t : String) (h : entryDead c now (getKey m t)) :
    entryDead (recordPageAccess c now m p t) now (getKey m t) := by
  obtain ⟨e, hE, hv⟩ := h
  unfold recordPageAccess
  dsimp only
  rw [hE]
  refine ⟨_, entryGet_entrySet_self _ _ _, ?_⟩
  simpa [isEntryValid] using hv

theorem dead_getCursor (c : CursorCache) (now : Int) (m : RankingCriteria)
    (t : String) (q : Nat) (h : entryDead c now (getKey m t)) :
    getCursor c now m q t = none := by
  obtain ⟨e, hE, hv⟩ := h
  unfold getCursor
  dsimp only
  rw [hE, hv]
  rfl

theorem dead_isPrefetchedAround (c : CursorCache) (now : Int) (m : RankingCriteria)
    (t : String) (q : Nat) (h : entryDead c now (getKey m t)) :
    isPrefetchedAround c now m q t = false := by
  obtain ⟨e, hE, hv⟩ := h
  unfold isPrefetchedAround
  dsimp only
  rw [hE, hv]
  rfl

theorem dead_getLastAccessedPage (c : CursorCache) (now : Int) (m : RankingCriteria)
    (t : String) (h : entryDead c now (getKey m t)) :
    getLastAccessedPage c now m t = none := by
  obtain ⟨e, hE, hv⟩ := h
  unfold getLastAccessedPage
  dsimp only
  rw [hE, hv]
  rfl

theorem clean_getCursor (db : List String) (c : CursorCache) (now : Int)
    (m : RankingCriteria) (t : String) (q : Nat) (a : String)
    (hc : cleanAnchors db c) (h : getCursor c now m q t = some a) : a ∈ db := by
  unfold getCursor at h
  dsimp only at h
  cases hE : entryGet c.cache (getKey m t) with
  | none => rw [hE] at h; simp [isEntryValid] at h
  | some e =>
      rw [hE] at h
      by_cases hv : isEntryValid now (some e) = true
      · rw [hv] at h
        simp only [if_true] at h
        exact hc _ _ _ _ hE h
      · rw [eq_false_of_ne_true hv] at h
        simp at h

theorem clean_setCursor (db : List String) (c : CursorCache) (now : Int)
    (m : RankingCriteria) (p : Nat) (docId t : String)
    (hc : cleanAnchors db c) (hd : docId ∈ db) :
    cleanAnchors db (setCursor c now m p docId t) := by
  intro k e q a hk ha
  unfold setCursor at hk
  dsimp only at hk
  cases hE : entryGet c.cache (getKey m t) with
  | none =>
      rw [hE] at hk
      by_cases hkey : k = getKey m t
      · subst hkey
        rw [entryGet_entrySet_self] at hk
        obtain rfl := (Option.some.inj hk).symm
        rcases mapGet_mapSet_cases _ _ _ _ _ ha with rfl | hmm
        · exact hd
        · simp [mapGet] at hmm
      · rw [entryGet_entrySet_ne _ _ _ _ hkey] at hk
        exact hc k e q a hk ha
  | some e1 =>
      rw [hE] at hk
      by_cases hkey : k = getKey m t
      · subst hkey
        rw [entryGet_entrySet_self] at hk
        obtain rfl := (Option.some.inj hk).symm
        rcases mapGet_mapSet_cases _ _ _ _ _ ha with rfl | hmm
        · exact hd
        · exact hc _ _ _ _ hE hmm
      · rw [entryGet_entrySet_ne _ _ _ _ hkey] at hk
        exact hc k e q a hk ha

theorem clean_markPrefetchedAround (db : List String) (c : CursorCache) (now : Int)
    (m : RankingCriteria) (p : Nat) (t : String) (hc : cleanAnchors db c) :
    cleanAnchors db (markPrefetchedAround c now m p t) := by
  intro k e q a hk ha
  unfold markPrefetchedAround at hk
  dsimp only at hk
  cases hE : entryGet c.cache (getKey m t) with
  | none =>
      rw [hE] at hk
      by_cases hkey : k = getKey m t
      · subst hkey
        rw [entryGet_entrySet_self] at hk
        obtain rfl := (Option.some.inj hk).symm
        simp [mapGet] at ha
      · rw [entryGet_entrySet_ne _ _ _ _ hkey] at hk
        exact hc k e q a hk ha
  | some e1 =>
      rw [hE] at hk
      by_cases hkey : k = getKey m t
      · subst hkey
        rw [entryGet_entrySet_self] at hk
        obtain rfl := (Option.some.inj hk).symm
        exact hc _ _ _ _ hE ha
      · rw [entryGet_entrySet_ne _ _ _ _ hkey] at hk
        exact hc k e q a hk ha

theorem clean_recordPageAccess (db : List String) (c : CursorCache) (now : Int)
    (m : RankingCriteria) (p : Nat) (t : String) (hc : cleanAnchors db c) :
    cleanAnchors db (recordPageAccess c now m p t) := by
  intro k e q a hk ha
  unfold recordPageAccess at hk
  dsimp only at hk
  cases hE : entryGet c.cache (getKey m t) with
  | none =>
      rw [hE] at hk
      by_cases hkey : k = getKey m t
      · subst hkey
        rw [entryGet_entrySet_self] at hk
        obtain rfl := (Option.some.inj hk).symm
        simp [mapGet] at ha
      · rw [entryGet_entrySet_ne _ _ _ _ hkey] at hk
        exact hc k e q a hk ha
  | some e1 =>
      rw [hE] at hk
      by_cases hkey : k = getKey m t
      · subst hkey
        rw [entryGet_entrySet_self] at hk
        obtain rfl := (Option.some.inj hk).symm
        exact hc _ _ _ _ hE ha
      · rw [entryGet_entrySet_ne _ _ _ _ hkey] at hk
        exact hc k e q a hk ha

/- ### The caching loops only perform cursor writes -/

theorem backwardStep_cases (now : Int) (mode : RankingCriteria) (t : String)
    (s e : Nat) (st : CursorCache × List Nat) (iv : Nat × String) :
    backwardStep now mode t s e st iv = st
    ∨ ∃ pg, backwardStep now mode t s e st iv
        = (setCursor st.1 now mode pg iv.2 t, st.2.erase pg) := by
  unfold backwardStep
  dsimp only
  split
  · split
    · exact Or.inr ⟨_, rfl⟩
    · exact Or.inl rfl
  · exact Or.inl rfl

theorem forwardStep_cases (now : Int) (mode : RankingCriteria) (t : String)
    (s e : Nat) (st : CursorCache × List Nat) (iv : Nat × String) :
    forwardStep now mode t s e st iv = st
    ∨ ∃ pg, forwardStep now mode t s e st iv
        = (setCursor st.1 now mode pg iv.2 t, st.2.erase pg) := by
  unfold forwardStep
  dsimp only
  split
  · split
    · exact Or.inr ⟨_, rfl⟩
    · exact Or.inl rfl
  · exact Or.inl rfl

theorem foldl_writes_preserve (now : Int) (mode : RankingCriteria) (t : String)
    (db : List String)
    (step : CursorCache × List Nat → Nat × String → CursorCache × List Nat)
    (hstep : ∀ st iv, step st iv = st
        ∨ ∃ pg, step st iv = (setCursor st.1 now mode pg iv.2 t, st.2.erase pg))
    (P : CursorCache → Prop)
    (hP : ∀ c2 pg docId, docId ∈ db → P c2 → P (setCursor c2 now mode pg docId t))
    (l : List (Nat × String)) :
    (∀ iv ∈ l, iv.2 ∈ db) → ∀ st, P st.1 → P (l.foldl step st).1 := by
  induction l with
  | nil => intro _ st h; exact h
  | cons iv rest ih =>
      intro hl st h
      have hiv : iv.2 ∈ db := hl iv (List.mem_cons_self _ _)
      have hrest : ∀ jv ∈ rest, jv.2 ∈ db := fun jv hj => hl jv (List.mem_cons_of_mem _ hj)
      rw [List.foldl_cons]
      rcases hstep st iv with he | ⟨pg, he⟩
      · rw [he]; exact ih hrest st h
      · rw [he]; exact ih hrest _ (hP st.1 pg iv.2 hiv h)

/- ### The forward window fetch under a clean cache and a pure backend -/

theorem executeForwardFetch_pure_ok (db : List String) (now : Int) (c : CursorCache)
    (s e : Nat) (mode : RankingCriteria) (nt : Option String) (cr : Nat)
    (hclean : cleanAnchors db c) :
    ∃ f, executeForwardFetch (pureB db) now c s e mode nt cr = .ok f
      ∧ ∀ x ∈ f.allDocs, x ∈ db := by
  unfold executeForwardFetch
  dsimp only
  by_cases hs : s > 1
  · rw [if_pos hs]
    cases ht : truthy (getCursor c now mode (s - 1) (orEmpty nt)) with
    | false =>
        rw [if_neg (by simp [ht])]
        exact ⟨_, rfl, fun x hx => List.take_subset _ _ hx⟩
    | true =>
        rw [if_pos (by simp [ht])]
        have hsome : getCursor c now mode (s - 1) (orEmpty nt)
            = some (strVal (getCursor c now mode (s - 1) (orEmpty nt))) := by
          obtain ⟨a, ha, -⟩ := (truthy_iff _).mp ht
          rw [ha]; rfl
        have hmem : strVal (getCursor c now mode (s - 1) (orEmpty nt)) ∈ db :=
          clean_getCursor db c now mode _ _ _ hclean hsome
        have hb : (pureB db).fetchDoc (strVal (getCursor c now mode (s - 1) (orEmpty nt)))
            = .ok (decide (strVal (getCursor c now mode (s - 1) (orEmpty nt)) ∈ db)) := rfl
        rw [hb]
        dsimp only
        obtain ⟨i, hi⟩ := firstIdxOf_of_mem db _ hmem
        have hq : (pureB db).runQuery
            (QSpec.afterDoc (strVal (getCursor c now mode (s - 1) (orEmpty nt)))
              ((e - s + 1) * ITEMS_PER_PAGE + 1))
            = .ok ((db.drop (i + 1)).take ((e - s + 1) * ITEMS_PER_PAGE + 1)) := by
          simp only [pureB, evalQuery, hi]
        rw [hq]
        exact ⟨_, rfl, fun x hx => List.drop_subset _ _ (List.take_subset _ _ hx)⟩
  · rw [if_neg hs]
    exact ⟨_, rfl, fun x hx => List.take_subset _ _ hx⟩

theorem executeForwardFetch_dead_eq (db : List String) (now : Int)
    (c c2 : CursorCache) (s e : Nat) (mode : RankingCriteria) (nt : Option String)
    (cr : Nat) (h : entryDead c now (getKey mode (orEmpty nt)))
    (h2 : entryDead c2 now (getKey mode (orEmpty nt))) :
    executeForwardFetch (pureB db) now c s e mode nt cr
      = executeForwardFetch (pureB db) now c2 s e mode nt cr := by
  unfold executeForwardFetch
  dsimp only
  rw [dead_getCursor _ _ _ _ _ h, dead_getCursor _ _ _ _ _ h2]

/- ### Shape of the last-page prefetch under a pure backend -/

theorem lastPage_pure_shape (db : List String) (now : Int) (tp : Nat)
    (mode : RankingCriteria) (nt : Option String) (c : CursorCache) :
    (truthy (getCursor c now mode tp (orEmpty nt)) = true
        ∧ prefetchLastPageCursor (pureB db) now tp mode nt c = (c, 0))
    ∨ (truthy (getCursor c now mode tp (orEmpty nt)) = false ∧ db = []
        ∧ prefetchLastPageCursor (pureB db) now tp mode nt c = (c, 0))
    ∨ (truthy (getCursor c now mode tp (orEmpty nt)) = false
        ∧ ∃ x, x ∈ db ∧ db.drop (db.length - 1) = [x]
            ∧ prefetchLastPageCursor (pureB db) now tp mode nt c
                = (setCursor c now mode tp x (orEmpty nt), 1)) := by
  cases ht : truthy (getCursor c now mode tp (orEmpty nt)) with
  | true =>
      refine Or.inl ⟨rfl, ?_⟩
      unfold prefetchLastPageCursor
      rw [if_pos (by simp [ht])]
  | false =>
      by_cases hdb : db = ([] : List String)
      · refine Or.inr (Or.inl ⟨rfl, hdb, ?_⟩)
        unfold prefetchLastPageCursor
        rw [if_neg (by simp [ht])]
        subst hdb
        rfl
      · obtain ⟨x, hx, hmem⟩ := lastN_one db hdb
        refine Or.inr (Or.inr ⟨rfl, x, hmem, hx, ?_⟩)
        unfold prefetchLastPageCursor
        rw [if_neg (by simp [ht])]
        have hq : (pureB db).runQuery (QSpec.lastN 1) = .ok (db.drop (db.length - 1)) := rfl
        rw [hq, hx]
        rfl

/- ### The prefetch pass under a live entry and clean anchors -/

theorem prefetchFetchPhase_live (db : List String) (now : Int) (s e : Nat) (ub : Bool)
    (p : Nat) (mode : RankingCriteria) (nt : Option String) (c : CursorCache)
    (hclean : cleanAnchors db c) (hlive : entryLive c now (getKey mode (orEmpty nt))) :
    isPrefetchedAround (prefetchFetchPhase (pureB db) now s e ub p mode nt c).1
        now mode p (orEmpty nt) = true
    ∧ entryLive (prefetchFetchPhase (pureB db) now s e ub p mode nt c).1
        now (getKey mode (orEmpty nt))
    ∧ cleanAnchors db (prefetchFetchPhase (pureB db) now s e ub p mode nt c).1 := by
  have hP : ∀ c2 pg docId, docId ∈ db →
      (cleanAnchors db c2 ∧ entryLive c2 now (getKey mode (orEmpty nt))) →
      (cleanAnchors db (setCursor c2 now mode pg docId (orEmpty nt))
        ∧ entryLive (setCursor c2 now mode pg docId (orEmpty nt)) now
            (getKey mode (orEmpty nt))) :=
    fun c2 pg d hd hcl =>
      ⟨clean_setCursor db c2 now mode pg d _ hcl.1 hd,
       entryLive_setCursor c2 now mode pg d _ hcl.2⟩
  unfold prefetchFetchPhase
  dsimp only
  cases hmp : ((pageRange s e).filter
      (fun page => !truthy (getCursor c now mode page (orEmpty nt)))).isEmpty with
  | true =>
      rw [if_pos rfl]
      exact ⟨isPrefetchedAround_markPrefetchedAround_self _ _ _ _ _ hlive,
        entryLive_markPrefetchedAround _ _ _ _ _ hlive,
        clean_markPrefetchedAround _ _ _ _ _ _ hclean⟩
  | false =>
      rw [if_neg (by simp)]
      cases ub with
      | false =>
          obtain ⟨f, hf, hfm⟩ := executeForwardFetch_pure_ok db now c s e mode nt 0 hclean
          rw [if_neg (by simp), hf]
          dsimp only [Except.map]
          have hl : ∀ iv ∈ (f.allDocs.enum.drop
              (if f.fetchedFromStart = true then (s - 1) * ITEMS_PER_PAGE else 0)),
              iv.2 ∈ db :=
            fun iv hiv => hfm iv.2 (mem_of_mem_enum _ _ (List.drop_subset _ _ hiv))
          have hloop := foldl_writes_preserve now mode (orEmpty nt) db
            (forwardStep now mode (orEmpty nt) s e)
            (forwardStep_cases now mode (orEmpty nt) s e)
            (fun cc => cleanAnchors db cc ∧ entryLive cc now (getKey mode (orEmpty nt)))
            hP _ hl
            (c, (pageRange s e).filter
              (fun page => !truthy (getCursor c now mode page (orEmpty nt))))
            ⟨hclean, hlive⟩
          exact ⟨isPrefetchedAround_markPrefetchedAround_self _ _ _ _ _ hloop.2,
            entryLive_markPrefetchedAround _ _ _ _ _ hloop.2,
            clean_markPrefetchedAround _ _ _ _ _ _ hloop.1⟩
      | true =>
          rw [if_pos rfl]
          cases hbt : truthy (getCursor c now mode e (orEmpty nt)) with
          | false =>
              rw [if_neg (by simp)]
              obtain ⟨f, hf, hfm⟩ := executeForwardFetch_pure_ok db now c s e mode nt 0 hclean
              rw [hf]
              dsimp only [Except.map]
              have hl : ∀ iv ∈ (f.allDocs.enum.drop
                  (if f.fetchedFromStart = true then (s - 1) * ITEMS_PER_PAGE else 0)),
                  iv.2 ∈ db :=
                fun iv hiv => hfm iv.2 (mem_of_mem_enum _ _ (List.drop_subset _ _ hiv))
              have hloop := foldl_writes_preserve now mode (orEmpty nt) db
                (forwardStep now mode (orEmpty nt) s e)
                (forwardStep_cases now mode (orEmpty nt) s e)
                (fun cc => cleanAnchors db cc ∧ entryLive cc now (getKey mode (orEmpty nt)))
                hP _ hl
                (c, (pageRange s e).filter
                  (fun page => !truthy (getCursor c now mode page (orEmpty nt))))
                ⟨hclean, hlive⟩
              exact ⟨isPrefetchedAround_markPrefetchedAround_self _ _ _ _ _ hloop.2,
                entryLive_markPrefetchedAround _ _ _ _ _ hloop.2,
                clean_markPrefetchedAround _ _ _ _ _ _ hloop.1⟩
          | true =>
              rw [if_pos rfl]
              have hsome : getCursor c now mode e (orEmpty nt)
                  = some (strVal (getCursor c now mode e (orEmpty nt))) := by
                obtain ⟨a, ha, -⟩ := (truthy_iff _).mp hbt
                rw [ha]; rfl
              have hmem : strVal (getCursor c now mode e (orEmpty nt)) ∈ db :=
                clean_getCursor db c now mode _ _ _ hclean hsome
              have hb : (pureB db).fetchDoc (strVal (getCursor c now mode e (orEmpty nt)))
                  = .ok (decide (strVal (getCursor c now mode e (orEmpty nt)) ∈ db)) := rfl
              rw [hb]
              dsimp only
              obtain ⟨i, hi⟩ := firstIdxOf_of_mem db _ hmem
              have hq : (pureB db).runQuery
                  (QSpec.beforeDocLast (strVal (getCursor c now mode e (orEmpty nt)))
                    ((e - s + 1) * ITEMS_PER_PAGE))
                  = .ok ((db.take i).drop ((db.take i).length - (e - s + 1) * ITEMS_PER_PAGE)) := by
                simp only [pureB, evalQuery, hi]
              rw [hq]
              dsimp only
              have hl : ∀ iv ∈ (((db.take i).drop
                  ((db.take i).length - (e - s + 1) * ITEMS_PER_PAGE)).enum), iv.2 ∈ db :=
                fun iv hiv =>
                  List.take_subset _ _ (List.drop_subset _ _ (mem_of_mem_enum _ _ hiv))
              have hloop := foldl_writes_preserve now mode (orEmpty nt) db
                (backwardStep now mode (orEmpty nt) s e)
                (backwardStep_cases now mode (orEmpty nt) s e)
                (fun cc => cleanAnchors db cc ∧ entryLive cc now (getKey mode (orEmpty nt)))
                hP _ hl
                (c, (pageRange s e).filter
                  (fun page => !truthy (getCursor c now mode page (orEmpty nt))))
                ⟨hclean, hlive⟩
              exact ⟨isPrefetchedAround_markPrefetchedAround_self _ _ _ _ _ hloop.2,
                entryLive_markPrefetchedAround _ _ _ _ _ hloop.2,
                clean_markPrefetchedAround _ _ _ _ _ _ hloop.1⟩

theorem prefetch_marked_skip (B : Backend) (now : Int) (tp p : Nat)
    (mode : RankingCriteria) (nt : Option String) (c : CursorCache)
    (h : isPrefetchedAround c now mode p (orEmpty nt) = true) :
    prefetchCursorsAround B now tp p mode nt c = (c, 0) := by
  unfold prefetchCursorsAround
  rw [if_pos h]

theorem prefetch_live_marks (db : List String) (now : Int) (tp p : Nat)
    (mode : RankingCriteria) (nt : Option String) (c : CursorCache)
    (hclean : cleanAnchors db c) (hlive : entryLive c now (getKey mode (orEmpty nt))) :
    isPrefetchedAround (prefetchCursorsAround (pureB db) now tp p mode nt c).1
        now mode p (orEmpty nt) = true
    ∧ entryLive (prefetchCursorsAround (pureB db) now tp p mode nt c).1
        now (getKey mode (orEmpty nt))
    ∧ cleanAnchors db (prefetchCursorsAround (pureB db) now tp p mode nt c).1 := by
  unfold prefetchCursorsAround
  dsimp only
  cases hm : isPrefetchedAround c now mode p (orEmpty nt) with
  | true =>
      rw [if_pos rfl]
      exact ⟨hm, hlive, hclean⟩
  | false =>
      rw [if_neg (by simp)]
      exact prefetchFetchPhase_live db now _ _ _ p mode nt c hclean hlive

/- ### The prefetch machinery on an expired (dead) entry -/

theorem truthy_none : truthy none = false := rfl

theorem foldl_writes_preserve2 (now : Int) (mode : RankingCriteria) (t : String)
    (step : CursorCache × List Nat → Nat × String → CursorCache × List Nat)
    (hstep : ∀ st iv, step st iv = st
        ∨ ∃ pg, step st iv = (setCursor st.1 now mode pg iv.2 t, st.2.erase pg))
    (P : CursorCache → Prop)
    (hP : ∀ c2 pg docId, P c2 → P (setCursor c2 now mode pg docId t))
    (l : List (Nat × String)) :
    ∀ st, P st.1 → P (l.foldl step st).1 := by
  induction l with
  | nil => intro st h; exact h
  | cons iv rest ih =>
      intro st h
      rw [List.foldl_cons]
      rcases hstep st iv with he | ⟨pg, he⟩
      · rw [he]; exact ih st h
      · rw [he]; exact ih _ (hP st.1 pg iv.2 h)

theorem prefetchFetchPhase_dead_pair (db : List String) (now : Int) (s e : Nat)
    (ub : Bool) (p : Nat) (mode : RankingCriteria) (nt : Option String)
    (c c2 : CursorCache)
    (h : entryDead c now (getKey mode (orEmpty nt)))
    (h2 : entryDead c2 now (getKey mode (orEmpty nt))) :
    (prefetchFetchPhase (pureB db) now s e ub p mode nt c).2
      = (prefetchFetchPhase (pureB db) now s e ub p mode nt c2).2
    ∧ entryDead (prefetchFetchPhase (pureB db) now s e ub p mode nt c).1
        now (getKey mode (orEmpty nt))
    ∧ entryDead (prefetchFetchPhase (pureB db) now s e ub p mode nt c2).1
        now (getKey mode (orEmpty nt)) := by
  have hg : ∀ q, getCursor c now mode q (orEmpty nt) = none :=
    fun q => dead_getCursor _ _ _ _ q h
  have hg2 : ∀ q, getCursor c2 now mode q (orEmpty nt) = none :=
    fun q => dead_getCursor _ _ _ _ q h2
  have hPd : ∀ cc pg docId, entryDead cc now (getKey mode (orEmpty nt)) →
      entryDead (setCursor cc now mode pg docId (orEmpty nt)) now (getKey mode (orEmpty nt)) :=
    fun cc pg d hd => entryDead_setCursor cc now mode pg d _ hd
  unfold prefetchFetchPhase
  dsimp only
  simp only [hg, hg2]
  by_cases hmp : ((pageRange s e).filter
      (fun page => !truthy (none : Option String))).isEmpty = true
  · rw [if_pos hmp, if_pos hmp]
    exact ⟨rfl, entryDead_markPrefetchedAround _ _ _ _ _ h,
      entryDead_markPrefetchedAround _ _ _ _ _ h2⟩
  · rw [if_neg hmp, if_neg hmp]
    have heq := executeForwardFetch_dead_eq db now c c2 s e mode nt 0 h h2
    have hbranch : ∀ cc : CursorCache,
        (if ub = true then
          (if truthy (none : Option String) = true then
            (match (pureB db).fetchDoc (strVal (none : Option String)) with
             | .error _ =>
                (executeForwardFetch (pureB db) now cc s e mode nt 0).map
                  (fun f => (f.allDocs, f.reads, f.fetchedFromStart, false))
             | .ok _ =>
                match (pureB db).runQuery
                    (.beforeDocLast (strVal (none : Option String))
                      ((e - s + 1) * ITEMS_PER_PAGE)) with
                | .ok docs => .ok (docs, 1 + docs.length, false, true)
                | .error _ =>
                    (executeForwardFetch (pureB db) now cc s e mode nt 1).map
                      (fun f => (f.allDocs, f.reads, f.fetchedFromStart, false)))
          else
            (executeForwardFetch (pureB db) now cc s e mode nt 0).map
              (fun f => (f.allDocs, f.reads, f.fetchedFromStart, false)))
        else
          (executeForwardFetch (pureB db) now cc s e mode nt 0).map
            (fun f => (f.allDocs, f.reads, f.fetchedFromStart, false)))
        = (executeForwardFetch (pureB db) now cc s e mode nt 0).map
            (fun f => (f.allDocs, f.reads, f.fetchedFromStart, false)) := by
      intro cc
      cases ub <;> simp [truthy_none]
    rw [hbranch c, hbranch c2, heq]
    cases hf : executeForwardFetch (pureB db) now c2 s e mode nt 0 with
    | error r =>
        dsimp only [Except.map]
        exact ⟨rfl, h, h2⟩
    | ok f =>
        dsimp only [Except.map]
        refine ⟨rfl, ?_, ?_⟩
        · exact entryDead_markPrefetchedAround _ _ _ _ _
            (foldl_writes_preserve2 now mode (orEmpty nt)
              (forwardStep now mode (orEmpty nt) s e)
              (forwardStep_cases now mode (orEmpty nt) s e)
              (fun cc => entryDead cc now (getKey mode (orEmpty nt))) hPd _ _ h)
        · exact entryDead_markPrefetchedAround _ _ _ _ _
            (foldl_writes_preserve2 now mode (orEmpty nt)
              (forwardStep now mode (orEmpty nt) s e)
              (forwardStep_cases now mode (orEmpty nt) s e)
              (fun cc => entryDead cc now (getKey mode (orEmpty nt))) hPd _ _ h2)

theorem prefetch_dead_pair (db : List String) (now : Int) (tp p : Nat)
    (mode : RankingCriteria) (nt : Option String) (c c2 : CursorCache)
    (h : entryDead c now (getKey mode (orEmpty nt)))
    (h2 : entryDead c2 now (getKey mode (orEmpty nt))) :
    (prefetchCursorsAround (pureB db) now tp p mode nt c).2
      = (prefetchCursorsAround (pureB db) now tp p mode nt c2).2
    ∧ entryDead (prefetchCursorsAround (pureB db) now tp p mode nt c).1
        now (getKey mode (orEmpty nt))
    ∧ entryDead (prefetchCursorsAround (pureB db) now tp p mode nt c2).1
        now (getKey mode (orEmpty nt)) := by
  unfold prefetchCursorsAround
  dsimp only
  rw [dead_isPrefetchedAround _ _ _ _ p h, dead_isPrefetchedAround _ _ _ _ p h2,
      dead_getLastAccessedPage _ _ _ _ h, dead_getLastAccessedPage _ _ _ _ h2]
  rw [if_neg (by simp : ¬((false : Bool) = true)), if_neg (by simp : ¬((false : Bool) = true))]
  exact prefetchFetchPhase_dead_pair db now _ _ _ p mode nt c c2 h h2

theorem lastPage_dead_pair (db : List String) (now : Int) (tp : Nat)
    (mode : RankingCriteria) (nt : Option String) (c c2 : CursorCache)
    (h : entryDead c now (getKey mode (orEmpty nt)))
    (h2 : entryDead c2 now (getKey mode (orEmpty nt))) :
    (prefetchLastPageCursor (pureB db) now tp mode nt c).2
      = (prefetchLastPageCursor (pureB db) now tp mode nt c2).2
    ∧ entryDead (prefetchLastPageCursor (pureB db) now tp mode nt c).1
        now (getKey mode (orEmpty nt))
    ∧ entryDead (prefetchLastPageCursor (pureB db) now tp mode nt c2).1
        now (getKey mode (orEmpty nt)) := by
  unfold prefetchLastPageCursor
  rw [dead_getCursor _ _ _ _ tp h, dead_getCursor _ _ _ _ tp h2]
  rw [if_neg (by simp [truthy_none]), if_neg (by simp [truthy_none])]
  cases hq : (pureB db).runQuery (QSpec.lastN 1) with
  | error e => exact ⟨rfl, h, h2⟩
  | ok docs =>
      cases docs with
      | nil => exact ⟨rfl, h, h2⟩
      | cons d rest =>
          exact ⟨rfl, entryDead_setCursor _ _ _ _ _ _ h, entryDead_setCursor _ _ _ _ _ _ h2⟩

theorem resolveCore_dead_pair (db : List String) (now : Int) (tp p : Nat)
    (mode : RankingCriteria) (nt : Option String) (c c2 : CursorCache)
    (h : entryDead c now (getKey mode (orEmpty nt)))
    (h2 : entryDead c2 now (getKey mode (orEmpty nt))) :
    (resolveCore (pureB db) now tp p mode nt c).2
      = (resolveCore (pureB db) now tp p mode nt c2).2
    ∧ entryDead (resolveCore (pureB db) now tp p mode nt c).1
        now (getKey mode (orEmpty nt))
    ∧ entryDead (resolveCore (pureB db) now tp p mode nt c2).1
        now (getKey mode (orEmpty nt)) := by
  have hstag : resolveStaged (pureB db) now p mode nt c
      = resolveStaged (pureB db) now p mode nt c2 := by
    unfold resolveStaged
    dsimp only
    rw [dead_getCursor _ _ _ _ (p - 1) h, dead_getCursor _ _ _ _ (p - 1) h2]
  unfold resolveCore
  rw [hstag]
  cases hs : resolveStaged (pureB db) now p mode nt c2 with
  | error e => exact ⟨rfl, h, h2⟩
  | ok trip =>
      obtain ⟨pq, dr, ffs⟩ := trip
      dsimp only
      cases hq : (pureB db).runQuery pq with
      | error e => exact ⟨rfl, h, h2⟩
      | ok allDocs =>
          dsimp only
          exact ⟨rfl, entryDead_recordPageAccess _ _ _ _ _ h,
            entryDead_recordPageAccess _ _ _ _ _ h2⟩

/- ### Congruence of the resolver core in the anchor it reads -/

theorem resolveCore_congr (B : Backend) (now : Int) (tp pn : Nat)
    (mode : RankingCriteria) (nt : Option String) (c c2 : CursorCache)
    (h : 1 < pn → getCursor c now mode (pn - 1) (orEmpty nt)
        = getCursor c2 now mode (pn - 1) (orEmpty nt)) :
    (resolveCore B now tp pn mode nt c).2 = (resolveCore B now tp pn mode nt c2).2 := by
  have hstag : resolveStaged B now pn mode nt c = resolveStaged B now pn mode nt c2 := by
    unfold resolveStaged
    dsimp only
    by_cases hp : pn > 1
    · rw [h hp]
    · rw [if_neg hp, if_neg hp]
  unfold resolveCore
  rw [hstag]
  cases hs : resolveStaged B now pn mode nt c2 with
  | error e => rfl
  | ok trip =>
      obtain ⟨pq, dr, ffs⟩ := trip
      dsimp only
      cases hq : B.runQuery pq with
      | error e => rfl
      | ok allDocs => rfl

/- ### Two successive resolves: the live-entry case -/

theorem pipeline_pair_live (db : List String) (now : Int) (tp pn : Nat)
    (mode : RankingCriteria) (nt : Option String) (c : CursorCache)
    (hclean : cleanAnchors db c) (hlive : entryLive c now (getKey mode (orEmpty nt)))
    (hpn : 1 < pn → pn ≤ tp) :
    (resolveCore (pureB db) now tp pn mode nt
        (prefetchPhase (pureB db) now tp pn mode nt
          (resolveCore (pureB db) now tp pn mode nt
            (prefetchPhase (pureB db) now tp pn mode nt c).1).1).1).2.2
      = (resolveCore (pureB db) now tp pn mode nt
          (prefetchPhase (pureB db) now tp pn mode nt c).1).2.2
    ∧ (prefetchPhase (pureB db) now tp pn mode nt
          (resolveCore (pureB db) now tp pn mode nt
            (prefetchPhase (pureB db) now tp pn mode nt c).1).1).2
        + (resolveCore (pureB db) now tp pn mode nt
            (prefetchPhase (pureB db) now tp pn mode nt
              (resolveCore (pureB db) now tp pn mode nt
                (prefetchPhase (pureB db) now tp pn mode nt c).1).1).1).2.1
      ≤ (prefetchPhase (pureB db) now tp pn mode nt c).2
        + (resolveCore (pureB db) now tp pn mode nt
            (prefetchPhase (pureB db) now tp pn mode nt c).1).2.1 := by
  obtain ⟨hmarkA, hliveA, hcleanA⟩ := prefetch_live_marks db now tp pn mode nt c hclean hlive
  have hne : 1 < pn → pn - 1 ≠ tp := by intro h1; have := hpn h1; omega
  unfold prefetchPhase
  dsimp only
  rcases lastPage_pure_shape db now tp mode nt
      ((prefetchCursorsAround (pureB db) now tp pn mode nt c).1) with
    ⟨htr, hlp⟩ | ⟨htr, hdb, hlp⟩ | ⟨htr, x, hxmem, hdrop, hlp⟩
  · -- call 1's last-page prefetch skipped (anchor already cached)
    rw [hlp]
    dsimp only
    obtain ⟨r1, hr1⟩ := resolveCore_pure_ok db now tp pn mode nt
      ((prefetchCursorsAround (pureB db) now tp pn mode nt c).1)
    have hc1 := (resolveCore_ok_shape _ _ _ _ _ _ _ _ hr1).2.2.2
    rw [hc1]
    have hmark1 : isPrefetchedAround
        (recordPageAccess ((prefetchCursorsAround (pureB db) now tp pn mode nt c).1)
          now mode pn (orEmpty nt)) now mode pn (orEmpty nt) = true := by
      rw [isPrefetchedAround_recordPageAccess]
      exact hmarkA
    rw [prefetch_marked_skip _ _ _ _ _ _ _ hmark1]
    dsimp only
    have hgtp : getCursor
        (recordPageAccess ((prefetchCursorsAround (pureB db) now tp pn mode nt c).1)
          now mode pn (orEmpty nt)) now mode tp (orEmpty nt)
        = getCursor ((prefetchCursorsAround (pureB db) now tp pn mode nt c).1)
            now mode tp (orEmpty nt) :=
      getCursor_recordPageAccess _ _ _ _ _ _ _
    rcases lastPage_pure_shape db now tp mode nt
        (recordPageAccess ((prefetchCursorsAround (pureB db) now tp pn mode nt c).1)
          now mode pn (orEmpty nt)) with
      ⟨htr2, hlp2⟩ | ⟨htr2, hdb2, hlp2⟩ | ⟨htr2, x2, hx2mem, hdrop2, hlp2⟩
    · rw [hlp2]
      dsimp only
      have hcong := resolveCore_congr (pureB db) now tp pn mode nt
        (recordPageAccess ((prefetchCursorsAround (pureB db) now tp pn mode nt c).1)
          now mode pn (orEmpty nt))
        ((prefetchCursorsAround (pureB db) now tp pn mode nt c).1)
        (fun _ => getCursor_recordPageAccess _ _ _ _ _ _ _)
      constructor
      · exact congrArg (fun z => z.2) hcong
      · have := congrArg (fun z => z.1) hcong
        dsimp at this
        omega
    · rw [hgtp, htr] at htr2; cases htr2
    · rw [hgtp, htr] at htr2; cases htr2
  · -- call 1's last-page prefetch found an empty backend
    rw [hlp]
    dsimp only
    obtain ⟨r1, hr1⟩ := resolveCore_pure_ok db now tp pn mode nt
      ((prefetchCursorsAround (pureB db) now tp pn mode nt c).1)
    have hc1 := (resolveCore_ok_shape _ _ _ _ _ _ _ _ hr1).2.2.2
    rw [hc1]
    have hmark1 : isPrefetchedAround
        (recordPageAccess ((prefetchCursorsAround (pureB db) now tp pn mode nt c).1)
          now mode pn (orEmpty nt)) now mode pn (orEmpty nt) = true := by
      rw [isPrefetchedAround_recordPageAccess]
      exact hmarkA
    rw [prefetch_marked_skip _ _ _ _ _ _ _ hmark1]
    dsimp only
    have hgtp : getCursor
        (recordPageAccess ((prefetchCursorsAround (pureB db) now tp pn mode nt c).1)
          now mode pn (orEmpty nt)) now mode tp (orEmpty nt)
        = getCursor ((prefetchCursorsAround (pureB db) now tp pn mode nt c).1)
            now mode tp (orEmpty nt) :=
      getCursor_recordPageAccess _ _ _ _ _ _ _
    rcases lastPage_pure_shape db now tp mode nt
        (recordPageAccess ((prefetchCursorsAround (pureB db) now tp pn mode nt c).1)
          now mode pn (orEmpty nt)) with
      ⟨htr2, hlp2⟩ | ⟨htr2, hdb2, hlp2⟩ | ⟨htr2, x2, hx2mem, hdrop2, hlp2⟩
    · rw [hgtp, htr] at htr2; cases htr2
    · rw [hlp2]
      dsimp only
      have hcong := resolveCore_congr (pureB db) now tp pn mode nt
        (recordPageAccess ((prefetchCursorsAround (pureB db) now tp pn mode nt c).1)
          now mode pn (orEmpty nt))
        ((prefetchCursorsAround (pureB db) now tp pn mode nt c).1)
        (fun _ => getCursor_recordPageAccess _ _ _ _ _ _ _)
      constructor
      · exact congrArg (fun z => z.2) hcong
      · have := congrArg (fun z => z.1) hcong
        dsimp at this
        omega
    · subst hdb
      cases hx2mem
  · -- call 1's last-page prefetch cached the final record x
    rw [hlp]
    dsimp only
    obtain ⟨r1, hr1⟩ := resolveCore_pure_ok db now tp pn mode nt
      (setCursor ((prefetchCursorsAround (pureB db) now tp pn mode nt c).1)
        now mode tp x (orEmpty nt))
    have hc1 := (resolveCore_ok_shape _ _ _ _ _ _ _ _ hr1).2.2.2
    rw [hc1]
    have hmark1 : isPrefetchedAround
        (recordPageAccess
          (setCursor ((prefetchCursorsAround (pureB db) now tp pn mode nt c).1)
            now mode tp x (orEmpty nt)) now mode pn (orEmpty nt))
        now mode pn (orEmpty nt) = true := by
      rw [isPrefetchedAround_recordPageAccess, isPrefetchedAround_setCursor]
      exact hmarkA
    rw [prefetch_marked_skip _ _ _ _ _ _ _ hmark1]
    dsimp only
    have hgtp : getCursor
        (recordPageAccess
          (setCursor ((prefetchCursorsAround (pureB db) now tp pn mode nt c).1)
            now mode tp x (orEmpty nt)) now mode pn (orEmpty nt))
        now mode tp (orEmpty nt) = some x := by
      rw [getCursor_recordPageAccess]
      exact getCursor_setCursor_self _ _ _ _ _ _ hliveA
    have hcongBase : 1 < pn → getCursor
        (recordPageAccess
          (setCursor ((prefetchCursorsAround (pureB db) now tp pn mode nt c).1)
            now mode tp x (orEmpty nt)) now mode pn (orEmpty nt))
        now mode (pn - 1) (orEmpty nt)
        = getCursor
            (setCursor ((prefetchCursorsAround (pureB db) now tp pn mode nt c).1)
              now mode tp x (orEmpty nt)) now mode (pn - 1) (orEmpty nt) :=
      fun _ => getCursor_recordPageAccess _ _ _ _ _ _ _
    rcases lastPage_pure_shape db now tp mode nt
        (recordPageAccess
          (setCursor ((prefetchCursorsAround (pureB db) now tp pn mode nt c).1)
            now mode tp x (orEmpty nt)) now mode pn (orEmpty nt)) with
      ⟨htr2, hlp2⟩ | ⟨htr2, hdb2, hlp2⟩ | ⟨htr2, x2, hx2mem, hdrop2, hlp2⟩
    · -- the second call sees the cached final record and skips
      rw [hlp2]
      dsimp only
      have hcong := resolveCore_congr (pureB db) now tp pn mode nt
        (recordPageAccess
          (setCursor ((prefetchCursorsAround (pureB db) now tp pn mode nt c).1)
            now mode tp x (orEmpty nt)) now mode pn (orEmpty nt))
        (setCursor ((prefetchCursorsAround (pureB db) now tp pn mode nt c).1)
          now mode tp x (orEmpty nt)) hcongBase
      constructor
      · exact congrArg (fun z => z.2) hcong
      · have := congrArg (fun z => z.1) hcong
        dsimp at this
        omega
    · -- impossible: the backend is non-empty (x is its final record)
      subst hdb2
      cases hxmem
    · -- the cached final record is the empty string: re-fetched and re-written
      have hx2 : x2 = x := by
        rw [hdrop] at hdrop2
        exact (List.cons.injEq _ _ _ _).mp hdrop2.symm |>.1
      subst hx2
      rw [hlp2]
      dsimp only
      have hcong := resolveCore_congr (pureB db) now tp pn mode nt
        (setCursor
          (recordPageAccess
            (setCursor ((prefetchCursorsAround (pureB db) now tp pn mode nt c).1)
              now mode tp x2 (orEmpty nt)) now mode pn (orEmpty nt))
          now mode tp x2 (orEmpty nt))
        (setCursor ((prefetchCursorsAround (pureB db) now tp pn mode nt c).1)
          now mode tp x2 (orEmpty nt))
        (by
          intro h1
          rw [getCursor_setCursor_ne _ _ _ _ _ _ _ _ (hne h1)]
          exact hcongBase h1)
      constructor
      · exact congrArg (fun z => z.2) hcong
      · have := congrArg (fun z => z.1) hcong
        dsimp at this
        omega

/- ### Two successive resolves: the expired-entry case -/

theorem pipeline_pair_dead (db : List String) (now : Int) (tp pn : Nat)
    (mode : RankingCriteria) (nt : Option String) (c : CursorCache)
    (h : entryDead c now (getKey mode (orEmpty nt))) :
    (resolveCore (pureB db) now tp pn mode nt
        (prefetchPhase (pureB db) now tp pn mode nt
          (resolveCore (pureB db) now tp pn mode nt
            (prefetchPhase (pureB db) now tp pn mode nt c).1).1).1).2.2
      = (resolveCore (pureB db) now tp pn mode nt
          (prefetchPhase (pureB db) now tp pn mode nt c).1).2.2
    ∧ (prefetchPhase (pureB db) now tp pn mode nt
          (resolveCore (pureB db) now tp pn mode nt
            (prefetchPhase (pureB db) now tp pn mode nt c).1).1).2
        + (resolveCore (pureB db) now tp pn mode nt
            (prefetchPhase (pureB db) now tp pn mode nt
              (resolveCore (pureB db) now tp pn mode nt
                (prefetchPhase (pureB db) now tp pn mode nt c).1).1).1).2.1
      ≤ (prefetchPhase (pureB db) now tp pn mode nt c).2
        + (resolveCore (pureB db) now tp pn mode nt
            (prefetchPhase (pureB db) now tp pn mode nt c).1).2.1 := by
  unfold prefetchPhase
  dsimp only
  have hdA1 : entryDead (prefetchCursorsAround (pureB db) now tp pn mode nt c).1
      now (getKey mode (orEmpty nt)) :=
    (prefetch_dead_pair db now tp pn mode nt c c h h).2.1
  have hdB1 : entryDead
      (prefetchLastPageCursor (pureB db) now tp mode nt
        (prefetchCursorsAround (pureB db) now tp pn mode nt c).1).1
      now (getKey mode (orEmpty nt)) :=
    (lastPage_dead_pair db now tp mode nt _ _ hdA1 hdA1).2.1
  have hdC1 : entryDead
      (resolveCore (pureB db) now tp pn mode nt
        (prefetchLastPageCursor (pureB db) now tp mode nt
          (prefetchCursorsAround (pureB db) now tp pn mode nt c).1).1).1
      now (getKey mode (orEmpty nt)) :=
    (resolveCore_dead_pair db now tp pn mode nt _ _ hdB1 hdB1).2.1
  have hP := prefetch_dead_pair db now tp pn mode nt
    (resolveCore (pureB db) now tp pn mode nt
      (prefetchLastPageCursor (pureB db) now tp mode nt
        (prefetchCursorsAround (pureB db) now tp pn mode nt c).1).1).1
    c hdC1 h
  have hL := lastPage_dead_pair db now tp mode nt
    (prefetchCursorsAround (pureB db) now tp pn mode nt
      (resolveCore (pureB db) now tp pn mode nt
        (prefetchLastPageCursor (pureB db) now tp mode nt
          (prefetchCursorsAround (pureB db) now tp pn mode nt c).1).1).1).1
    (prefetchCursorsAround (pureB db) now tp pn mode nt c).1
    hP.2.1 hP.2.2
  have hR := resolveCore_dead_pair db now tp pn mode nt
    (prefetchLastPageCursor (pureB db) now tp mode nt
      (prefetchCursorsAround (pureB db) now tp pn mode nt
        (resolveCore (pureB db) now tp pn mode nt
          (prefetchLastPageCursor (pureB db) now tp mode nt
            (prefetchCursorsAround (pureB db) now tp pn mode nt c).1).1).1).1).1
    (prefetchLastPageCursor (pureB db) now tp mode nt
      (prefetchCursorsAround (pureB db) now tp pn mode nt c).1).1
    hL.2.1 hL.2.2
  have hres := congrArg (fun z => z.2) hR.1
  have hreads := congrArg (fun z => z.1) hR.1
  dsimp at hres hreads
  refine ⟨hres, ?_⟩
  have h1 := hP.1
  have h2 := hL.1
  omega

/-- C7 (amended): for caches with no stale anchors (every stored anchor id
occurs in the backend), two successive resolves of the same page against
an unchanged backend return identical results — records and pagination
metadata — and the second call performs at most as many external document
reads as the first. -/
theorem resolve_idempotent_clean (db : List String) (now : Int) (requestedPage : Int)
    (mode : RankingCriteria) (searchTerm : Option String) (c : CursorCache)
    (hclean : cleanAnchors db c) :
    (getPaginatedLeaderboard (pureB db) now requestedPage mode searchTerm
        (getPaginatedLeaderboard (pureB db) now requestedPage mode searchTerm c).1).2.2
      = (getPaginatedLeaderboard (pureB db) now requestedPage mode searchTerm c).2.2
    ∧ (getPaginatedLeaderboard (pureB db) now requestedPage mode searchTerm
        (getPaginatedLeaderboard (pureB db) now requestedPage mode searchTerm c).1).2.1
      ≤ (getPaginatedLeaderboard (pureB db) now requestedPage mode searchTerm c).2.1 := by
  unfold getPaginatedLeaderboard
  have hn : (pureB db).countDocs = .ok db.length := rfl
  rw [hn]
  dsimp only
  have hpn : 1 < (if requestedPage < 1
        ∨ (((db.length + (ITEMS_PER_PAGE - 1)) / ITEMS_PER_PAGE : Nat) : Int) < requestedPage
      then 1 else requestedPage.toNat) →
      (if requestedPage < 1
        ∨ (((db.length + (ITEMS_PER_PAGE - 1)) / ITEMS_PER_PAGE : Nat) : Int) < requestedPage
      then 1 else requestedPage.toNat) ≤ (db.length + (ITEMS_PER_PAGE - 1)) / ITEMS_PER_PAGE := by
    split_ifs with h1
    · omega
    · push_neg at h1
      omega
  cases hE : entryGet c.cache (getKey mode (orEmpty (optNormalize searchTerm))) with
  | none =>
      exact pipeline_pair_live db now _ _ mode _ c hclean (Or.inr hE) hpn
  | some e0 =>
      by_cases hv : isEntryValid now (some e0) = true
      · refine pipeline_pair_live db now _ _ mode _ c hclean (Or.inl ?_) hpn
        rw [hE]; exact hv
      · exact pipeline_pair_dead db now _ _ mode _ c ⟨e0, hE, eq_false_of_ne_true hv⟩

/-- Witness for C7 at a concrete clean cache and request. -/
theorem resolve_idempotent_clean_witness :
    cleanAnchors db25 emptyCache
    ∧ ((getPaginatedLeaderboard (pureB db25) 0 3 .disinformer none
          (getPaginatedLeaderboard (pureB db25) 0 3 .disinformer none emptyCache).1).2.2
        = (getPaginatedLeaderboard (pureB db25) 0 3 .disinformer none emptyCache).2.2
      ∧ (getPaginatedLeaderboard (pureB db25) 0 3 .disinformer none
          (getPaginatedLeaderboard (pureB db25) 0 3 .disinformer none emptyCache).1).2.1
        ≤ (getPaginatedLeaderboard (pureB db25) 0 3 .disinformer none emptyCache).2.1) := by
  have hclean : cleanAnchors db25 emptyCache := by
    intro k e page a hk ha
    simp [emptyCache, entryGet] at hk
  exact ⟨hclean, resolve_idempotent_clean db25 0 3 .disinformer none emptyCache hclean⟩

/- ### Claim theorems (first group) -/

/-- C5: for every requested page, last-accessed page and page total, the
direction detector returns `JumpToStart` when the requested page is 1;
otherwise `JumpToEnd` when it equals `totalPages`; otherwise `Forward`
when the last-accessed page is absent, equal, or smaller; and `Backward`
exactly when the requested page is strictly below the last-accessed page. -/
theorem detect_direction_characterization (currentPage : Nat)
    (lastAccessedPage : Option Nat) (totalPages : Nat) :
    detectNavigationDirection currentPage lastAccessedPage totalPages =
      (if currentPage = 1 then NavigationDirection.JumpToStart
       else if currentPage = totalPages then NavigationDirection.JumpToEnd
       else
         match lastAccessedPage with
         | none => NavigationDirection.Forward
         | some last =>
             if currentPage < last then NavigationDirection.Backward
             else NavigationDirection.Forward) := by
  unfold detectNavigationDirection
  cases lastAccessedPage with
  | none => rfl
  | some last =>
      by_cases h1 : currentPage = 1 <;> by_cases h2 : currentPage = totalPages <;>
        simp only [h1, h2, if_true, if_false, if_pos, if_neg, not_false_iff] <;>
        split_ifs <;> first | rfl | omega

/-- C3 (amended): a present entry is valid exactly when its age is at most
the TTL, and an invalid (absent or expired) entry is treated identically
to an absent one by the anchor lookup, the prefetched-around query and the
last-accessed-page lookup (all return their miss value); `getStats`
reports `isExpired = true` for it, but — unlike the other reads — still
exposes the expired entry's stored cursor count and age. -/
theorem ttl_expiry_reads :
    (∀ (now : Int) (e : CacheEntry),
        isEntryValid now (some e) = true ↔ now - e.timestamp ≤ CURSOR_CACHE_TTL)
    ∧ (∀ (c : CursorCache) (now : Int) (mode : RankingCriteria) (t : String),
        isEntryValid now (entryGet c.cache (getKey mode t)) = false →
          (∀ page, getCursor c now mode page t = none)
          ∧ (∀ page, isPrefetchedAround c now mode page t = false)
          ∧ getLastAccessedPage c now mode t = none
          ∧ (getStats c now mode t).isExpired = true) := by
  constructor
  · intro now e
    simp [isEntryValid]
  · intro c now mode t h
    refine ⟨?_, ?_, ?_, ?_⟩
    · intro page; unfold getCursor; simp [h]
    · intro page; unfold isPrefetchedAround; simp [h]
    · unfold getLastAccessedPage; simp [h]
    · unfold getStats
      cases hE : entryGet c.cache (getKey mode t) with
      | none => rfl
      | some e =>
          rw [hE] at h
          simp only [isEntryValid, decide_eq_false_iff_not] at h
          dsimp only
          simp only [decide_eq_true_iff]
          omega

/-- Witness for C3 at a concrete expired entry (age `TTL + 1`). -/
theorem ttl_expiry_reads_witness :
    isEntryValid (CURSOR_CACHE_TTL + 1)
        (entryGet expiredCacheEx.cache (getKey .disinformer "")) = false
    ∧ getCursor expiredCacheEx (CURSOR_CACHE_TTL + 1) .disinformer 2 "" = none :=
  ⟨by decide,
   (ttl_expiry_reads.2 expiredCacheEx (CURSOR_CACHE_TTL + 1) .disinformer "" (by decide)).1 2⟩

/-- C3 counterexample: `getStats` on an expired entry does NOT behave like
on an absent entry — it reports the stored cursor count and age. -/
theorem ttl_stats_counterexample :
    isEntryValid (CURSOR_CACHE_TTL + 1)
        (entryGet expiredCacheEx.cache (getKey .disinformer "")) = false
    ∧ getStats expiredCacheEx (CURSOR_CACHE_TTL + 1) .disinformer ""
        ≠ getStats emptyCache (CURSOR_CACHE_TTL + 1) .disinformer "" :=
  ⟨by decide, by decide⟩

/-- C4: evaluating a write on an expired entry: `setCursor` mutates the
expired entry in place — the old timestamp (0) and the stale anchor
`(2, "a")` survive, and the freshly written anchor for page 3 remains
unreadable — instead of atomically replacing the entry with a fresh one. -/
theorem expired_write_reuse_eval :
    entryGet (setCursor expiredCacheEx (CURSOR_CACHE_TTL + 1) .disinformer 3 "b" "").cache
        (getKey .disinformer "")
      = some { cursors := [(2, "a"), (3, "b")], timestamp := 0,
               prefetchedAroundPages := [], lastAccessedPage := none }
    ∧ getCursor (setCursor expiredCacheEx (CURSOR_CACHE_TTL + 1) .disinformer 3 "b" "")
        (CURSOR_CACHE_TTL + 1) .disinformer 3 "" = none :=
  ⟨by decide, by decide⟩

set_option maxRecDepth 10000

/-- C1: evaluating the prefetch pass at the failing input: with the correct
anchor "r9" stored for page 1 (100 records, forward navigation to page 5),
the windowed prefetch stores "r29" as the anchor of page 2, although the
last record of page 2 is "r19" — the stored anchor is NOT the last record
of its page. -/
theorem anchor_invariant_violation_eval :
    getCursor (prefetchCursorsAround (pureB db100) 0 10 5 .disinformer none c1cache).1
        0 .disinformer 2 "" = some "r29"
    ∧ lastRecordOfPage db100 2 = some "r19"
    ∧ getCursor c1cache 0 .disinformer 1 "" = some "r9"
    ∧ lastRecordOfPage db100 1 = some "r9" :=
  ⟨by decide, by decide, by decide, by decide⟩

/-- C8: Anchor Store operations are context-isolated: a cursor write, a
prefetched-around mark, or a page-access record under one (mode, term)
context leaves every observation (anchor lookup, prefetched-around query,
last-accessed-page lookup, stats) under any different (mode, term) context
unchanged. -/
theorem context_isolation (m1 : RankingCriteria) (t1 : String)
    (m2 : RankingCriteria) (t2 : String) (h : (m1, t1) ≠ (m2, t2))
    (c : CursorCache) (now : Int) (page : Nat) (docId : String) :
    sameObservations m2 t2 (setCursor c now m1 page docId t1) c
    ∧ sameObservations m2 t2 (markPrefetchedAround c now m1 page t1) c
    ∧ sameObservations m2 t2 (recordPageAccess c now m1 page t1) c := by
  have hk : getKey m2 t2 ≠ getKey m1 t1 := by
    intro he
    obtain ⟨hm, ht⟩ := getKey_inj m2 m1 t2 t1 he
    exact h (by rw [hm, ht])
  refine ⟨?_, ?_, ?_⟩
  · obtain ⟨e, he⟩ := setCursor_cache_shape c now m1 page docId t1
    intro now2 page2
    have hE : entryGet (setCursor c now m1 page docId t1).cache (getKey m2 t2)
        = entryGet c.cache (getKey m2 t2) := by
      rw [he]; exact entryGet_entrySet_ne _ _ _ _ hk
    exact ⟨getCursor_congr _ _ _ _ _ _ hE, isPrefetchedAround_congr _ _ _ _ _ _ hE,
      getLastAccessedPage_congr _ _ _ _ _ hE, getStats_congr _ _ _ _ _ hE⟩
  · obtain ⟨e, he⟩ := markPrefetchedAround_cache_shape c now m1 page t1
    intro now2 page2
    have hE : entryGet (markPrefetchedAround c now m1 page t1).cache (getKey m2 t2)
        = entryGet c.cache (getKey m2 t2) := by
      rw [he]; exact entryGet_entrySet_ne _ _ _ _ hk
    exact ⟨getCursor_congr _ _ _ _ _ _ hE, isPrefetchedAround_congr _ _ _ _ _ _ hE,
      getLastAccessedPage_congr _ _ _ _ _ hE, getStats_congr _ _ _ _ _ hE⟩
  · obtain ⟨e, he⟩ := recordPageAccess_cache_shape c now m1 page t1
    intro now2 page2
    have hE : entryGet (recordPageAccess c now m1 page t1).cache (getKey m2 t2)
        = entryGet c.cache (getKey m2 t2) := by
      rw [he]; exact entryGet_entrySet_ne _ _ _ _ hk
    exact ⟨getCursor_congr _ _ _ _ _ _ hE, isPrefetchedAround_congr _ _ _ _ _ _ hE,
      getLastAccessedPage_congr _ _ _ _ _ hE, getStats_congr _ _ _ _ _ hE⟩

/-- Witness for C8 at two concrete distinct contexts. -/
theorem context_isolation_witness :
    ((RankingCriteria.disinformer, ("" : String)) ≠ (RankingCriteria.netizen, ("" : String)))
    ∧ sameObservations .netizen ""
        (setCursor emptyCache 0 .disinformer 2 "a" "") emptyCache :=
  ⟨by decide,
   (context_isolation .disinformer "" .netizen "" (by decide) emptyCache 0 2 "a").1⟩

/-- C2 counterexample: a successful resolve of page 5 that returns a full
page of 10 records, after which the Anchor Store holds NO anchor for
page 5 (the claim requires the anchor of page 5 to equal the id of the
last returned record). -/
theorem resolve_cache_claim_counterexample :
    ((getPaginatedLeaderboard (pureB db100) 0 5 .disinformer none c2cache).2.2.map
        (fun r => (r.players.length, r.currentPage))) = .ok (10, 5)
    ∧ getCursor (getPaginatedLeaderboard (pureB db100) 0 5 .disinformer none c2cache).1
        0 .disinformer 5 "" = none :=
  ⟨by decide, by decide⟩

/-- C6 counterexample: on an empty backend the returned `totalPages` is 0,
not the claimed minimum of 1. -/
theorem totalPages_min_counterexample :
    ((getPaginatedLeaderboard (pureB []) 0 1 .disinformer none emptyCache).2.2.map
        (fun r => r.totalPages)) = .ok 0
    ∧ ((getPaginatedLeaderboard (pureB []) 0 1 .disinformer none emptyCache).2.2.map
        (fun r => r.totalPages)) ≠ .ok (max 1 ((List.length ([] : List String) + 9) / 10)) :=
  ⟨by decide, by decide⟩

/-- C10: for every backend behaviour (including oversized responses to the
from-beginning fallback) and every request, a successful resolve returns at
most `ITEMS_PER_PAGE` (10) records, because the fetched document list is
always sliced to a window of `ITEMS_PER_PAGE` at the computed page offset. -/
theorem resolve_page_size_bound (B : Backend) (now : Int) (requestedPage : Int)
    (mode : RankingCriteria) (searchTerm : Option String) (c : CursorCache)
    (r : LeaderboardPageResult)
    (h : (getPaginatedLeaderboard B now requestedPage mode searchTerm c).2.2 = .ok r) :
    r.players.length ≤ ITEMS_PER_PAGE := by
  unfold getPaginatedLeaderboard at h
  cases hc : B.countDocs with
  | error e => rw [hc] at h; simp at h
  | ok n =>
      rw [hc] at h
      dsimp only at h
      exact (resolveCore_ok_shape _ _ _ _ _ _ _ _ h).1

/-- Witness for C10 at a concrete request. -/
theorem resolve_page_size_bound_witness :
    ∃ r, (getPaginatedLeaderboard (pureB db25) 0 2 .disinformer none emptyCache).2.2 = .ok r
      ∧ r.players.length ≤ ITEMS_PER_PAGE := by
  obtain ⟨r, hr⟩ : ∃ r,
      (getPaginatedLeaderboard (pureB db25) 0 2 .disinformer none emptyCache).2.2 = .ok r :=
    ⟨_, rfl⟩
  exact ⟨r, hr, resolve_page_size_bound _ _ _ _ _ _ _ hr⟩

theorem resolveCore_ok_any (B : Backend) (now : Int) (tp p : Nat)
    (mode : RankingCriteria) (term : Option String) (c : CursorCache)
    (hdoc : ∀ a, ∃ b, B.fetchDoc a = .ok b)
    (hstart : ∀ lim, ∃ l, B.runQuery (.fromStart lim) = .ok l)
    (hafter : ∀ a lim, ∃ l, B.runQuery (.afterDoc a lim) = .ok l) :
    ∃ r, (resolveCore B now tp p mode term c).2.2 = .ok r := by
  unfold resolveCore
  obtain ⟨q, dr, ffs, hs, hq⟩ := resolveStaged_shape B now p mode term c hdoc
  rw [hs]
  dsimp only
  rcases hq with ⟨lim, rfl⟩ | ⟨a, lim, rfl⟩
  · obtain ⟨l, hl⟩ := hstart lim
    rw [hl]
    exact ⟨_, rfl⟩
  · obtain ⟨l, hl⟩ := hafter a lim
    rw [hl]
    exact ⟨_, rfl⟩

/-- C9: prefetch failure is non-fatal: for every backend in which the
count, the cursor-document lookups and the forward fetch shapes used by
the resolver's own path succeed, while the prefetch-only query shapes
(backward window scan `beforeDocLast`, last-record scan `lastN`) may throw
arbitrarily, the resolve call still completes and returns a page result —
no prefetch-path exception propagates. -/
theorem prefetch_failure_nonfatal (B : Backend) (now : Int) (requestedPage : Int)
    (mode : RankingCriteria) (searchTerm : Option String) (c : CursorCache)
    (hcount : ∃ n, B.countDocs = .ok n)
    (hdoc : ∀ a, ∃ b, B.fetchDoc a = .ok b)
    (hstart : ∀ lim, ∃ l, B.runQuery (.fromStart lim) = .ok l)
    (hafter : ∀ a lim, ∃ l, B.runQuery (.afterDoc a lim) = .ok l) :
    ∃ r, (getPaginatedLeaderboard B now requestedPage mode searchTerm c).2.2 = .ok r := by
  obtain ⟨n, hn⟩ := hcount
  unfold getPaginatedLeaderboard
  rw [hn]
  dsimp only
  exact resolveCore_ok_any B now _ _ mode _ _ hdoc hstart hafter

/-- Witness for C9: a backend whose backward-scan and last-record queries
always throw, on which the resolver still returns a page result. -/
theorem prefetch_failure_nonfatal_witness :
    (failingBackend db25).runQuery (.lastN 1) = .error ()
    ∧ (failingBackend db25).runQuery (.beforeDocLast "r9" 40) = .error ()
    ∧ ∃ r, (getPaginatedLeaderboard (failingBackend db25) 0 2 .disinformer none
          emptyCache).2.2 = .ok r :=
  ⟨rfl, rfl,
   prefetch_failure_nonfatal _ 0 2 .disinformer none emptyCache
     ⟨_, rfl⟩ (fun a => ⟨_, rfl⟩) (fun lim => ⟨_, rfl⟩) (fun a lim => ⟨_, rfl⟩)⟩

/-- C6 (amended): `totalPages` equals ceil(totalCount / pageSize) with NO
minimum (it is 0 on an empty backend); every requested page outside
`[1, totalPages]` (including 0, negatives, overshoots, and every request
when `totalPages = 0`) is silently redirected so that `currentPage` is 1;
in-range pages are served unchanged. -/
theorem page_normalization (db : List String) (now : Int) (requestedPage : Int)
    (mode : RankingCriteria) (searchTerm : Option String) (c : CursorCache) :
    ∃ r, (getPaginatedLeaderboard (pureB db) now requestedPage mode searchTerm c).2.2 = .ok r
      ∧ r.totalPages = (db.length + (ITEMS_PER_PAGE - 1)) / ITEMS_PER_PAGE
      ∧ r.currentPage =
          (if 1 ≤ requestedPage
              ∧ requestedPage ≤ (((db.length + (ITEMS_PER_PAGE - 1)) / ITEMS_PER_PAGE : Nat) : Int)
           then requestedPage.toNat else 1) := by
  unfold getPaginatedLeaderboard
  have hn : (pureB db).countDocs = .ok db.length := rfl
  rw [hn]
  dsimp only
  obtain ⟨r, hr⟩ := resolveCore_pure_ok db now
      ((db.length + (ITEMS_PER_PAGE - 1)) / ITEMS_PER_PAGE)
      (if requestedPage < 1
          ∨ (((db.length + (ITEMS_PER_PAGE - 1)) / ITEMS_PER_PAGE : Nat) : Int) < requestedPage
       then 1 else requestedPage.toNat)
      mode (optNormalize searchTerm)
      (prefetchPhase (pureB db) now
        ((db.length + (ITEMS_PER_PAGE - 1)) / ITEMS_PER_PAGE)
        (if requestedPage < 1
            ∨ (((db.length + (ITEMS_PER_PAGE - 1)) / ITEMS_PER_PAGE : Nat) : Int) < requestedPage
         then 1 else requestedPage.toNat)
        mode (optNormalize searchTerm) c).1
  refine ⟨r, hr, (resolveCore_ok_shape _ _ _ _ _ _ _ _ hr).2.1, ?_⟩
  rw [(resolveCore_ok_shape _ _ _ _ _ _ _ _ hr).2.2.1]
  split_ifs <;> omega

/-- C2 (amended): after every successful resolve of page p, the resolver's
own cache update is exactly `recordPageAccess(context, p)` applied to the
cache produced by its two prefetch passes: the context's last-accessed
page becomes p, and the resolve step itself stores no anchor for p or
p + 1 (anchor writes happen only inside the prefetch passes). -/
theorem resolve_cache_update (B : Backend) (now : Int) (requestedPage : Int)
    (mode : RankingCriteria) (searchTerm : Option String) (c : CursorCache)
    (r : LeaderboardPageResult)
    (h : (getPaginatedLeaderboard B now requestedPage mode searchTerm c).2.2 = .ok r) :
    (getPaginatedLeaderboard B now requestedPage mode searchTerm c).1
      = recordPageAccess
          (prefetchPhase B now r.totalPages r.currentPage mode (optNormalize searchTerm) c).1
          now mode r.currentPage (orEmpty (optNormalize searchTerm))
    ∧ ∃ e, entryGet (getPaginatedLeaderboard B now requestedPage mode searchTerm c).1.cache
          (getKey mode (orEmpty (optNormalize searchTerm))) = some e
        ∧ e.lastAccessedPage = some r.currentPage := by
  unfold getPaginatedLeaderboard at h ⊢
  cases hc : B.countDocs with
  | error e => rw [hc] at h; simp at h
  | ok n =>
      rw [hc] at h
      dsimp only at h ⊢
      obtain ⟨hlen, htp, hcp, hcache⟩ := resolveCore_ok_shape _ _ _ _ _ _ _ _ h
      rw [htp, hcp, hcache]
      exact ⟨rfl, recordPageAccess_lastAccessed _ _ _ _ _⟩

/-- Witness for C2 at a concrete request (25 records, page 1). -/
theorem resolve_cache_update_witness :
    ∃ e, entryGet (getPaginatedLeaderboard (pureB db25) 0 1 .disinformer none
            emptyCache).1.cache (getKey .disinformer "") = some e
        ∧ e.lastAccessedPage = some 1 := by
  have hr : (getPaginatedLeaderboard (pureB db25) 0 1 .disinformer none emptyCache).2.2
      = .ok { players := ["r0", "r1", "r2", "r3", "r4", "r5", "r6", "r7", "r8", "r9"]
              totalPages := 3
              currentPage := 1
              hasNextPage := true
              hasPrevPage := false
              cursors := { nextPageDocId := some "r10", prevPageDocId := none } } := by
    decide
  exact (resolve_cache_update _ _ _ _ _ _ _ hr).2

/-- C7 counterexample: a stale anchor ("zzz") for page 1 makes the first
resolve's prefetch abort unmarked; the second, identical resolve then
performs a backward prefetch that installs off-by-one anchors, returns
DIFFERENT records (pages shifted by one record) and performs MORE external
reads (53 against 43) than the first call. -/
theorem resolve_idempotence_counterexample :
    c7out1.2.2.map (fun r => r.players) = .ok ["r40"]
    ∧ c7out2.2.2.map (fun r => r.players)
        = .ok ["r30", "r31", "r32", "r33", "r34", "r35", "r36", "r37", "r38", "r39"]
    ∧ c7out1.2.1 < c7out2.2.1 :=
  ⟨by decide, by decide, by decide⟩

end Leaderboard
